import Mathlib

/-!
Verification development for the py-gpt document ingestion core.

The Lean definitions below are shallow embeddings of the Python modules

  * src/pygpt_net/core/document_processor.py        (namespace SL)
  * src/pygpt_net/core/document_cache.py            (namespace DocCache)
  * src/pygpt_net/core/document_processing_service.py (namespace DPService)
  * src/pygpt_net/ui/widget/file_loader_thread.py   (namespaces LoaderWorker, BLPool)
  * src/pygpt_net/ui/widget/filesystem/lazy_model.py (namespace RowModel)

Conventions: machine floats that only serve as timestamps are modelled as
Nat ticks; the filesystem is an oracle function from path to optional
mtime; hashlib.sha256 is an abstract digest function over the list of
bytes fed to the accumulator; byte strings are lists of naturals.
-/

namespace DocModel

/-- Severity levels of document_processor.ErrorSeverity. -/
inductive ErrorSeverity
  | warning
  | error
  | fatal
  deriving DecidableEq, Repr

/-- LoadError from document_processor.py, restricted to the fields the
claims observe (timestamp and the exception object are dropped). -/
structure LoadError where
  severity : ErrorSeverity
  message : String
  errorCode : String
  source : String
  recoverable : Bool := false
  deriving DecidableEq, Repr

/-- DocumentMetadata from document_processor.py. `reprSize` models the
value of `len(str(metadata))` used by CacheEntry._calculate_size; the
remaining dropped fields only feed that repr. -/
structure DocumentMetadata where
  source : String
  sizeBytes : Nat := 0
  checksumSha256 : Option String := none
  encoding : String := "utf-8"
  reprSize : Nat := 0
  deriving DecidableEq, Repr

/-- LoadResult from document_processor.py. -/
structure LoadResult where
  success : Bool
  content : List String := []
  metadata : Option DocumentMetadata := none
  errors : List LoadError := []
  warnings : List LoadError := []
  loadTime : Nat := 0
  deriving DecidableEq, Repr

end DocModel

namespace DocCache

open DocModel

/-- CacheEntry from document_cache.py. -/
structure CacheEntry where
  content : List String
  metadata : Option DocumentMetadata
  accessCount : Nat := 0
  lastAccessed : Nat := 0
  sizeBytes : Nat := 0
  fileModifiedAt : Option Nat := none
  deriving DecidableEq, Repr

/-- Models `len(str(metadata))`: 4 is `len(str(None))`. -/
def mdReprLen : Option DocumentMetadata → Nat
  | none => 4
  | some md => md.reprSize

/-- CacheEntry._calculate_size: utf-8 size of the content chunks plus the
size of the metadata repr. -/
def calcSize (content : List String) (metadata : Option DocumentMetadata) : Nat :=
  (content.map String.utf8ByteSize).sum + mdReprLen metadata

/-- CacheEntry.is_stale: the filesystem oracle returns the current mtime
when the path exists. `e.fileModifiedAt.getD 0` models
`self.file_modified_at or 0`. -/
def CacheEntry.is_stale (e : CacheEntry) (fs : String → Option Nat) (sourcePath : String) : Bool :=
  match fs sourcePath with
  | none => true
  | some m => decide (e.fileModifiedAt.getD 0 < m)

/-- CacheStats counters of document_cache.py. -/
structure CacheStats where
  hits : Nat := 0
  misses : Nat := 0
  evictions : Nat := 0
  totalAccesses : Nat := 0
  totalLoadedBytes : Nat := 0
  totalSavedBytes : Nat := 0
  deriving DecidableEq, Repr

/-- DocumentCache configuration after __init__ resolved it. -/
structure Config where
  maxSizeBytes : Nat
  maxDocuments : Nat
  enableStats : Bool := true

/-- DocumentCache.__init__: max_size_mb is multiplied into bytes. -/
def mkCacheConfig (maxSizeMb maxDocuments : Nat) : Config :=
  { maxSizeBytes := maxSizeMb * 1024 * 1024, maxDocuments := maxDocuments, enableStats := true }

/-- External world of the cache: filesystem mtimes, path resolution, and
the loader registry (`_load_document`, collapsing the explicit-loader and
registry paths into one oracle that returns what load_complete returns,
or none on no-loader or exception). `now` models time.time(). -/
structure Env where
  fs : String → Option Nat
  canon : String → String
  load : String → Option LoadResult
  now : Nat := 0

/-- Mutable state of a DocumentCache: the OrderedDict (head is least
recently used), the incremental byte counter, statistics and the
shutdown flag. The counter is an Int because the source subtracts
unboundedly. -/
structure CacheState where
  cache : List (String × CacheEntry) := []
  stats : CacheStats := {}
  currentSizeBytes : Int := 0
  shutdown : Bool := false
  deriving DecidableEq, Repr

/-- Lookup in the OrderedDict. -/
def odFind : List (String × CacheEntry) → String → Option CacheEntry
  | [], _ => none
  | (k, v) :: rest, key => if k = key then some v else odFind rest key

/-- Assignment `od[key] = v`: replaces in place when present (keeping the
position, as Python dicts do), appends otherwise. -/
def odSet : List (String × CacheEntry) → String → CacheEntry → List (String × CacheEntry)
  | [], key, v => [(key, v)]
  | (k, w) :: rest, key, v =>
      if k = key then (key, v) :: rest else (k, w) :: odSet rest key v

/-- Deletion `del od[key]`. -/
def odEraseKey : List (String × CacheEntry) → String → List (String × CacheEntry)
  | [], _ => []
  | (k, v) :: rest, key => if k = key then rest else (k, v) :: odEraseKey rest key

/-- OrderedDict.move_to_end. -/
def odMoveToEnd (l : List (String × CacheEntry)) (key : String) : List (String × CacheEntry) :=
  match odFind l key with
  | none => l
  | some v => odEraseKey l key ++ [(key, v)]

/-- DocumentCache._make_cache_key: resolve to an absolute path when the
source exists on disk, otherwise use the string verbatim. -/
def makeCacheKey (env : Env) (source : String) : String :=
  if (env.fs source).isSome then env.canon source else source

/-- Sum of the resident entry sizes, as an Int for comparison with the
incremental counter. -/
def sumSizes (l : List (String × CacheEntry)) : Int :=
  (l.map (fun p => (p.2.sizeBytes : Int))).sum

/-- Statistics update performed when _ensure_capacity evicts one entry. -/
def bumpEviction (cfg : Config) (stats : CacheStats) (e : CacheEntry) : CacheStats :=
  if cfg.enableStats then
    { stats with evictions := stats.evictions + 1,
                 totalSavedBytes := stats.totalSavedBytes + e.sizeBytes }
  else stats

/-- The while-loop of DocumentCache._ensure_capacity: while over the byte
or count limit, pop the least recently used entry; stop when the cache is
empty. On the empty list both the break and the loop-exit coincide. -/
def evictLoop (cfg : Config) (required : Nat) :
    List (String × CacheEntry) → Int → CacheStats →
    List (String × CacheEntry) × Int × CacheStats
  | [], cur, stats => ([], cur, stats)
  | (k, e) :: rest, cur, stats =>
      if cur + (required : Int) > (cfg.maxSizeBytes : Int) ∨ rest.length + 1 ≥ cfg.maxDocuments then
        evictLoop cfg required rest (cur - (e.sizeBytes : Int)) (bumpEviction cfg stats e)
      else ((k, e) :: rest, cur, stats)

/-- DocumentCache._ensure_capacity. -/
def ensureCapacity (cfg : Config) (st : CacheState) (required : Nat) : CacheState :=
  let (c, cur, stats) := evictLoop cfg required st.cache st.currentSizeBytes st.stats
  { st with cache := c, currentSizeBytes := cur, stats := stats }

/-- DocumentCache.put. Returns the Python boolean and the new state. -/
def put (cfg : Config) (env : Env) (st : CacheState) (source : String) (result : LoadResult) :
    Bool × CacheState :=
  if st.shutdown ∨ result.success = false then (false, st)
  else
    let cacheKey := makeCacheKey env source
    let entry : CacheEntry :=
      { content := result.content
        metadata := result.metadata
        accessCount := 1
        lastAccessed := env.now
        sizeBytes := calcSize result.content result.metadata
        fileModifiedAt := some ((env.fs source).getD 0) }
    let st1 := ensureCapacity cfg st entry.sizeBytes
    (true, { st1 with cache := odSet st1.cache cacheKey entry,
                      currentSizeBytes := st1.currentSizeBytes + (entry.sizeBytes : Int) })

/-- DocumentCache.invalidate. -/
def invalidate (env : Env) (st : CacheState) (source : String) : Bool × CacheState :=
  let cacheKey := makeCacheKey env source
  match odFind st.cache cacheKey with
  | some e =>
      (true, { st with cache := odEraseKey st.cache cacheKey,
                       currentSizeBytes := st.currentSizeBytes - (e.sizeBytes : Int) })
  | none => (false, st)

/-- DocumentCache.clear. -/
def clear (st : CacheState) : CacheState :=
  { st with cache := [], currentSizeBytes := 0 }


/-- Statistics update on the miss path (guarded by enable_stats). -/
def bumpMisses (cfg : Config) (st : CacheState) : CacheState :=
  if cfg.enableStats then
    { st with stats := { st.stats with misses := st.stats.misses + 1 } }
  else st

/-- Unconditional total_accesses increment at the top of get. -/
def bumpAccesses (st : CacheState) : CacheState :=
  { st with stats := { st.stats with totalAccesses := st.stats.totalAccesses + 1 } }

/-- Statistics update on a cache hit (guarded by enable_stats). -/
def bumpHit (cfg : Config) (st : CacheState) (e : CacheEntry) : CacheState :=
  if cfg.enableStats then
    { st with stats := { st.stats with hits := st.stats.hits + 1,
                                       totalLoadedBytes := st.stats.totalLoadedBytes + e.sizeBytes } }
  else st

/-- Miss path of DocumentCache.get: count the miss, load outside the
lock, put the result back when it is a success, return it. -/
def getMiss (cfg : Config) (env : Env) (st : CacheState) (source : String) :
    Option LoadResult × CacheState :=
  let st1 := bumpMisses cfg st
  match env.load source with
  | some result =>
      if result.success then (some result, (put cfg env st1 source result).2)
      else (some result, st1)
  | none => (none, st1)

/-- DocumentCache.get. -/
def get (cfg : Config) (env : Env) (st : CacheState) (source : String) :
    Option LoadResult × CacheState :=
  if st.shutdown then (none, st)
  else
    let cacheKey := makeCacheKey env source
    let st0 := bumpAccesses st
    match odFind st0.cache cacheKey with
    | some entry =>
        if entry.is_stale env.fs source = false then
          let entry1 := { entry with accessCount := entry.accessCount + 1,
                                     lastAccessed := env.now }
          let st1 := bumpHit cfg st0 entry
          let st2 := { st1 with
            cache := odMoveToEnd (odSet st0.cache cacheKey entry1) cacheKey }
          (some { success := true, content := entry.content, metadata := entry.metadata,
                  loadTime := 0 }, st2)
        else getMiss cfg env st0 source
    | none => getMiss cfg env st0 source

/-- One operation of the put/invalidate/get/clear surface. -/
inductive CacheOp
  | putOp (source : String) (result : LoadResult)
  | invalidateOp (source : String)
  | getOp (source : String)
  | clearOp

/-- Apply one operation, discarding the returned value. -/
def step (cfg : Config) (env : Env) (st : CacheState) : CacheOp → CacheState
  | .putOp source result => (put cfg env st source result).2
  | .invalidateOp source => (invalidate env st source).2
  | .getOp source => (get cfg env st source).2
  | .clearOp => clear st

/-- Run a sequence of operations from a state. -/
def run (cfg : Config) (env : Env) (ops : List CacheOp) (st : CacheState) : CacheState :=
  ops.foldl (step cfg env) st

theorem sumSizes_nil : sumSizes [] = 0 := rfl

theorem sumSizes_cons (k : String) (e : CacheEntry) (rest : List (String × CacheEntry)) :
    sumSizes ((k, e) :: rest) = (e.sizeBytes : Int) + sumSizes rest := by
  simp [sumSizes]

theorem sumSizes_nonneg (l : List (String × CacheEntry)) : 0 ≤ sumSizes l := by
  induction l with
  | nil => simp [sumSizes]
  | cons p rest ih =>
      obtain ⟨k, e⟩ := p
      rw [sumSizes_cons]
      have h0 : (0 : Int) ≤ (e.sizeBytes : Int) := Int.ofNat_nonneg _
      omega

theorem bumpMisses_cache (cfg : Config) (st : CacheState) :
    (bumpMisses cfg st).cache = st.cache := by
  rw [bumpMisses]; split <;> rfl

theorem bumpAccesses_cache (st : CacheState) : (bumpAccesses st).cache = st.cache := rfl

/-- After the eviction loop, the cache is either empty or strictly below
the document-count limit. -/
theorem evictLoop_count (cfg : Config) (required : Nat) :
    ∀ (cache : List (String × CacheEntry)) (cur : Int) (stats : CacheStats),
      (evictLoop cfg required cache cur stats).1 = [] ∨
      (evictLoop cfg required cache cur stats).1.length < cfg.maxDocuments := by
  intro cache
  induction cache with
  | nil => intro cur stats; left; rfl
  | cons p rest ih =>
      intro cur stats
      obtain ⟨k, e⟩ := p
      rw [evictLoop]
      split
      · exact ih _ _
      · right
        rename_i hcond
        push_neg at hcond
        simpa using hcond.2

/-- When the required size alone exceeds the byte limit and the counter
dominates the resident sum, the eviction loop drains the cache completely
and leaves a nonnegative counter. -/
theorem evictLoop_oversized (cfg : Config) (required : Nat)
    (hreq : (cfg.maxSizeBytes : Int) < (required : Int)) :
    ∀ (cache : List (String × CacheEntry)) (cur : Int) (stats : CacheStats),
      sumSizes cache ≤ cur →
      (evictLoop cfg required cache cur stats).1 = [] ∧
      0 ≤ (evictLoop cfg required cache cur stats).2.1 := by
  intro cache
  induction cache with
  | nil =>
      intro cur stats hsum
      rw [sumSizes_nil] at hsum
      exact ⟨rfl, hsum⟩
  | cons p rest ih =>
      intro cur stats hsum
      obtain ⟨k, e⟩ := p
      rw [sumSizes_cons] at hsum
      have hrest : 0 ≤ sumSizes rest := sumSizes_nonneg rest
      have h0 : (0 : Int) ≤ (e.sizeBytes : Int) := Int.ofNat_nonneg _
      have hcond : cur + (required : Int) > (cfg.maxSizeBytes : Int) := by omega
      rw [evictLoop, if_pos (Or.inl hcond)]
      exact ih (cur - (e.sizeBytes : Int)) (bumpEviction cfg stats e) (by omega)

theorem odSet_length_le (l : List (String × CacheEntry)) (k : String) (v : CacheEntry) :
    (odSet l k v).length ≤ l.length + 1 := by
  induction l with
  | nil => simp [odSet]
  | cons p rest ih =>
      obtain ⟨k', w⟩ := p
      rw [odSet]
      split
      · simp
      · simpa using Nat.succ_le_succ ih

theorem odSet_length_of_find (l : List (String × CacheEntry)) (k : String) (v w : CacheEntry)
    (h : odFind l k = some w) : (odSet l k v).length = l.length := by
  induction l with
  | nil => simp [odFind] at h
  | cons p rest ih =>
      obtain ⟨k', u⟩ := p
      rw [odFind] at h
      rw [odSet]
      by_cases hk : k' = k
      · rw [if_pos hk]; simp
      · rw [if_neg hk]
        rw [if_neg hk] at h
        simpa using ih h

theorem odEraseKey_length_of_find (l : List (String × CacheEntry)) (k : String) (w : CacheEntry)
    (h : odFind l k = some w) : (odEraseKey l k).length + 1 = l.length := by
  induction l with
  | nil => simp [odFind] at h
  | cons p rest ih =>
      obtain ⟨k', u⟩ := p
      rw [odFind] at h
      rw [odEraseKey]
      by_cases hk : k' = k
      · rw [if_pos hk]; simp
      · rw [if_neg hk]
        rw [if_neg hk] at h
        simpa using ih h

theorem odMoveToEnd_length (l : List (String × CacheEntry)) (k : String) :
    (odMoveToEnd l k).length = l.length := by
  rw [odMoveToEnd]
  cases h : odFind l k with
  | none => rfl
  | some v =>
      have := odEraseKey_length_of_find l k v h
      simpa using this

theorem odFind_odSet_self (l : List (String × CacheEntry)) (k : String) (v : CacheEntry) :
    odFind (odSet l k v) k = some v := by
  induction l with
  | nil => simp [odSet, odFind]
  | cons p rest ih =>
      obtain ⟨k', w⟩ := p
      rw [odSet]
      by_cases hk : k' = k
      · rw [if_pos hk, odFind, if_pos rfl]
      · rw [if_neg hk, odFind, if_neg hk]
        exact ih

theorem odEraseKey_length_le (l : List (String × CacheEntry)) (k : String) :
    (odEraseKey l k).length ≤ l.length := by
  induction l with
  | nil => simp [odEraseKey]
  | cons p rest ih =>
      obtain ⟨k', w⟩ := p
      rw [odEraseKey]
      split
      · simp
      · simpa using Nat.succ_le_succ ih

/-- put keeps the resident count within the limit (or leaves the state
untouched when it rejects). -/
theorem put_count (cfg : Config) (env : Env) (st : CacheState) (source : String)
    (result : LoadResult) (hdocs : 1 ≤ cfg.maxDocuments)
    (hst : st.cache.length ≤ cfg.maxDocuments) :
    (put cfg env st source result).2.cache.length ≤ cfg.maxDocuments := by
  rw [put]
  split
  · exact hst
  · have hpost := evictLoop_count cfg (calcSize result.content result.metadata)
      st.cache st.currentSizeBytes st.stats
    simp only [ensureCapacity]
    rcases hpost with hempty | hlt
    · rw [hempty]
      simpa [odSet] using hdocs
    · calc (odSet (evictLoop cfg (calcSize result.content result.metadata) st.cache
              st.currentSizeBytes st.stats).1 (makeCacheKey env source) _).length
          ≤ _ + 1 := odSet_length_le _ _ _
        _ ≤ cfg.maxDocuments := by omega

theorem getMiss_count (cfg : Config) (env : Env) (st : CacheState) (source : String)
    (hdocs : 1 ≤ cfg.maxDocuments) (hst : st.cache.length ≤ cfg.maxDocuments) :
    (getMiss cfg env st source).2.cache.length ≤ cfg.maxDocuments := by
  have hb : (bumpMisses cfg st).cache.length ≤ cfg.maxDocuments := by
    rw [bumpMisses_cache]; exact hst
  rw [getMiss]
  cases h : env.load source with
  | none => exact hb
  | some result =>
      simp only []
      split
      · exact put_count cfg env _ source result hdocs hb
      · exact hb

theorem get_count (cfg : Config) (env : Env) (st : CacheState) (source : String)
    (hdocs : 1 ≤ cfg.maxDocuments) (hst : st.cache.length ≤ cfg.maxDocuments) :
    (get cfg env st source).2.cache.length ≤ cfg.maxDocuments := by
  have hb : (bumpAccesses st).cache.length ≤ cfg.maxDocuments := hst
  rw [get]
  split
  · exact hst
  · cases hfind : odFind (bumpAccesses st).cache (makeCacheKey env source) with
    | none =>
        simp only [hfind]
        exact getMiss_count cfg env _ source hdocs hb
    | some entry =>
        simp only [hfind]
        split
        · have hlen := odSet_length_of_find (bumpAccesses st).cache (makeCacheKey env source)
            { entry with accessCount := entry.accessCount + 1, lastAccessed := env.now }
            entry hfind
          simpa [odMoveToEnd_length, hlen] using hst
        · exact getMiss_count cfg env _ source hdocs hb

theorem step_count (cfg : Config) (env : Env) (st : CacheState) (op : CacheOp)
    (hdocs : 1 ≤ cfg.maxDocuments) (hst : st.cache.length ≤ cfg.maxDocuments) :
    (step cfg env st op).cache.length ≤ cfg.maxDocuments := by
  cases op with
  | putOp source result => exact put_count cfg env st source result hdocs hst
  | invalidateOp source =>
      rw [step, invalidate]
      cases h : odFind st.cache (makeCacheKey env source) with
      | none => exact hst
      | some e =>
          simp only []
          calc (odEraseKey st.cache (makeCacheKey env source)).length
              ≤ st.cache.length := odEraseKey_length_le _ _
            _ ≤ cfg.maxDocuments := hst
  | getOp source => exact get_count cfg env st source hdocs hst
  | clearOp => simp [step, clear]

theorem run_count (cfg : Config) (env : Env) (ops : List CacheOp)
    (hdocs : 1 ≤ cfg.maxDocuments) :
    ∀ st : CacheState, st.cache.length ≤ cfg.maxDocuments →
      (run cfg env ops st).cache.length ≤ cfg.maxDocuments := by
  induction ops with
  | nil => intro st hst; exact hst
  | cons op rest ih =>
      intro st hst
      exact ih _ (step_count cfg env st op hdocs hst)

end DocCache

namespace DocCache

open DocModel

theorem bumpEviction_hits (cfg : Config) (stats : CacheStats) (e : CacheEntry) :
    (bumpEviction cfg stats e).hits = stats.hits := by
  rw [bumpEviction]; split <;> rfl

theorem bumpEviction_misses (cfg : Config) (stats : CacheStats) (e : CacheEntry) :
    (bumpEviction cfg stats e).misses = stats.misses := by
  rw [bumpEviction]; split <;> rfl

theorem evictLoop_hits (cfg : Config) (required : Nat) :
    ∀ (cache : List (String × CacheEntry)) (cur : Int) (stats : CacheStats),
      (evictLoop cfg required cache cur stats).2.2.hits = stats.hits := by
  intro cache
  induction cache with
  | nil => intro cur stats; rfl
  | cons p rest ih =>
      intro cur stats
      obtain ⟨k, e⟩ := p
      rw [evictLoop]
      split
      · rw [ih, bumpEviction_hits]
      · rfl

theorem evictLoop_misses (cfg : Config) (required : Nat) :
    ∀ (cache : List (String × CacheEntry)) (cur : Int) (stats : CacheStats),
      (evictLoop cfg required cache cur stats).2.2.misses = stats.misses := by
  intro cache
  induction cache with
  | nil => intro cur stats; rfl
  | cons p rest ih =>
      intro cur stats
      obtain ⟨k, e⟩ := p
      rw [evictLoop]
      split
      · rw [ih, bumpEviction_misses]
      · rfl

theorem put_hits (cfg : Config) (env : Env) (st : CacheState) (source : String)
    (result : LoadResult) : (put cfg env st source result).2.stats.hits = st.stats.hits := by
  rw [put]
  split
  · rfl
  · exact evictLoop_hits cfg _ st.cache st.currentSizeBytes st.stats

theorem put_misses (cfg : Config) (env : Env) (st : CacheState) (source : String)
    (result : LoadResult) : (put cfg env st source result).2.stats.misses = st.stats.misses := by
  rw [put]
  split
  · rfl
  · exact evictLoop_misses cfg _ st.cache st.currentSizeBytes st.stats

/-- Environment with an empty filesystem and no loader registered. -/
def envEmpty : Env := { fs := fun _ => none, canon := id, load := fun _ => none, now := 0 }

/-- DocumentCache(max_size_mb=1, max_documents=10). -/
def cfg1MiB : Config := mkCacheConfig 1 10

/-- First successful result stored under key a (entry size 10). -/
def resSmallA : LoadResult :=
  { success := true, content := [], metadata := some { source := "a", reprSize := 10 } }

/-- Replacement result stored under the same key a (entry size 20). -/
def resSmallB : LoadResult :=
  { success := true, content := [], metadata := some { source := "a", reprSize := 20 } }

/-- A result whose single entry (size 2000000) exceeds the 1 MiB bound. -/
def resOversized : LoadResult :=
  { success := true, content := [], metadata := some { source := "big", reprSize := 2000000 } }

end DocCache

/-- Claim C3 (code_bug evaluation): DocumentCache.put on a key that is
already resident replaces the entry but adds the new size to
_current_size_bytes without subtracting the replaced size. At the failing
input (two puts under one key, sizes 10 and 20) the tracked counter is 30
while the resident entries sum to 20, violating invariant I1. -/
theorem cacheReplacement_size_counter_bug :
    (DocCache.run DocCache.cfg1MiB DocCache.envEmpty
        [DocCache.CacheOp.putOp "a" DocCache.resSmallA,
         DocCache.CacheOp.putOp "a" DocCache.resSmallB] {}).currentSizeBytes = 30
  ∧ DocCache.sumSizes (DocCache.run DocCache.cfg1MiB DocCache.envEmpty
        [DocCache.CacheOp.putOp "a" DocCache.resSmallA,
         DocCache.CacheOp.putOp "a" DocCache.resSmallB] {}).cache = 20
  ∧ (DocCache.run DocCache.cfg1MiB DocCache.envEmpty
        [DocCache.CacheOp.putOp "a" DocCache.resSmallA,
         DocCache.CacheOp.putOp "a" DocCache.resSmallB] {}).cache.length = 1 := by
  decide

/-- Claim C2 (counterexample): a put whose single new entry alone exceeds
max_bytes is not rejected. From the empty cache, put returns true, the
entry is inserted, and current_bytes (2000000) exceeds max_bytes
(1048576), contradicting both the rejection and the byte bound stated by
the claim. -/
theorem cacheOversizedPut_accepted_counterexample :
    (DocCache.put DocCache.cfg1MiB DocCache.envEmpty {} "big" DocCache.resOversized).1 = true
  ∧ (DocCache.put DocCache.cfg1MiB DocCache.envEmpty {} "big"
        DocCache.resOversized).2.currentSizeBytes = 2000000
  ∧ (DocCache.cfg1MiB.maxSizeBytes : Int) <
      (DocCache.put DocCache.cfg1MiB DocCache.envEmpty {} "big"
        DocCache.resOversized).2.currentSizeBytes
  ∧ (DocCache.put DocCache.cfg1MiB DocCache.envEmpty {} "big"
        DocCache.resOversized).2.cache.length = 1 := by
  decide

/-- Claim C2 (amended): for every sequence of put/invalidate/get
operations from the empty cache the count bound current_count ≤ max_count
holds after each operation (given max_count ≥ 1); the byte bound does
not: a put whose single entry exceeds max_bytes is not rejected — it
drains the cache, inserts the oversized entry, returns true and leaves
current_bytes above max_bytes. -/
theorem cachePut_count_bound_amended (cfg : DocCache.Config) (env : DocCache.Env)
    (hdocs : 1 ≤ cfg.maxDocuments) :
    (∀ ops : List DocCache.CacheOp,
        (DocCache.run cfg env ops {}).cache.length ≤ cfg.maxDocuments)
  ∧ (∀ (st : DocCache.CacheState) (source : String) (result : DocModel.LoadResult),
        st.shutdown = false → result.success = true →
        DocCache.sumSizes st.cache ≤ st.currentSizeBytes →
        (cfg.maxSizeBytes : Int) < (DocCache.calcSize result.content result.metadata : Int) →
        (DocCache.put cfg env st source result).1 = true ∧
        (cfg.maxSizeBytes : Int) < (DocCache.put cfg env st source result).2.currentSizeBytes) := by
  constructor
  · intro ops
    exact DocCache.run_count cfg env ops hdocs {} (by simp)
  · intro st source result hsd hsucc hsum hbig
    have hcond : ¬ (st.shutdown = true ∨ result.success = false) := by
      simp [hsd, hsucc]
    rw [DocCache.put, if_neg hcond]
    have hdrain := DocCache.evictLoop_oversized cfg
      (DocCache.calcSize result.content result.metadata) hbig st.cache st.currentSizeBytes
      st.stats hsum
    refine ⟨rfl, ?_⟩
    have h0 := hdrain.2
    show (cfg.maxSizeBytes : Int) <
      (DocCache.evictLoop cfg (DocCache.calcSize result.content result.metadata) st.cache
        st.currentSizeBytes st.stats).2.1 +
      (DocCache.calcSize result.content result.metadata : Int)
    omega

/-- Witness for cachePut_count_bound_amended at a concrete configuration. -/
theorem cachePut_count_bound_amended_witness :
    1 ≤ DocCache.cfg1MiB.maxDocuments
  ∧ ((∀ ops : List DocCache.CacheOp,
        (DocCache.run DocCache.cfg1MiB DocCache.envEmpty ops {}).cache.length ≤
          DocCache.cfg1MiB.maxDocuments)
    ∧ (∀ (st : DocCache.CacheState) (source : String) (result : DocModel.LoadResult),
        st.shutdown = false → result.success = true →
        DocCache.sumSizes st.cache ≤ st.currentSizeBytes →
        (DocCache.cfg1MiB.maxSizeBytes : Int) <
          (DocCache.calcSize result.content result.metadata : Int) →
        (DocCache.put DocCache.cfg1MiB DocCache.envEmpty st source result).1 = true ∧
        (DocCache.cfg1MiB.maxSizeBytes : Int) <
          (DocCache.put DocCache.cfg1MiB DocCache.envEmpty st source result).2.currentSizeBytes)) :=
  ⟨by decide, cachePut_count_bound_amended DocCache.cfg1MiB DocCache.envEmpty (by decide)⟩

namespace DocCache

open DocModel

/-- On a stale hit, get reduces to the miss path applied to the
accesses-bumped state: the stale entry is never returned. -/
theorem get_stale_eq_getMiss (cfg : Config) (env : Env) (st : CacheState) (source : String)
    (entry : CacheEntry)
    (hsd : st.shutdown = false)
    (hfind : odFind st.cache (makeCacheKey env source) = some entry)
    (hstale : entry.is_stale env.fs source = true) :
    get cfg env st source = getMiss cfg env (bumpAccesses st) source := by
  have hfind2 : odFind (bumpAccesses st).cache (makeCacheKey env source) = some entry := hfind
  simp [get, hsd, hfind2, hstale]

theorem bumpMisses_misses (cfg : Config) (st : CacheState) (hstats : cfg.enableStats = true) :
    (bumpMisses cfg st).stats.misses = st.stats.misses + 1 := by
  simp [bumpMisses, hstats]

theorem bumpMisses_hits (cfg : Config) (st : CacheState) :
    (bumpMisses cfg st).stats.hits = st.stats.hits := by
  rw [bumpMisses]; split <;> rfl

/-- Environment in which f exists with mtime 5. -/
def envStaleBefore : Env :=
  { fs := fun s => if s = "f" then some 5 else none, canon := id,
    load := fun _ => none, now := 0 }

/-- Environment in which the mtime of f advanced to 9 and every load
fails (no loader produces a result). -/
def envStaleAfter : Env :=
  { fs := fun s => if s = "f" then some 9 else none, canon := id,
    load := fun _ => none, now := 1 }

/-- The v1 load result originally cached for f. -/
def resStaleV1 : LoadResult :=
  { success := true, content := ["v1"], metadata := some { source := "f", reprSize := 10 } }

/-- The entry that put stores for f under envStaleBefore. -/
def entryStaleV1 : CacheEntry :=
  { content := ["v1"], metadata := some { source := "f", reprSize := 10 },
    accessCount := 1, lastAccessed := 0, sizeBytes := 12, fileModifiedAt := some 5 }

end DocCache

/-- Claim C5 (amended): a stale hit on DocumentCache.get is counted as a
miss and never returned as a hit — the returned value is exactly the
fresh load result — but the stale entry is not dropped: when the reload
returns nothing or a failed result, the cache (stale entry included) is
left exactly as it was. -/
theorem cacheGet_stale_is_miss_amended (cfg : DocCache.Config) (env : DocCache.Env)
    (st : DocCache.CacheState) (source : String) (entry : DocCache.CacheEntry)
    (hsd : st.shutdown = false)
    (hstats : cfg.enableStats = true)
    (hfind : DocCache.odFind st.cache (DocCache.makeCacheKey env source) = some entry)
    (hstale : entry.is_stale env.fs source = true) :
    ((DocCache.get cfg env st source).2.stats.misses = st.stats.misses + 1)
  ∧ ((DocCache.get cfg env st source).2.stats.hits = st.stats.hits)
  ∧ ((DocCache.get cfg env st source).1 = env.load source)
  ∧ (env.load source = none → (DocCache.get cfg env st source).2.cache = st.cache)
  ∧ (∀ res, env.load source = some res → res.success = false →
        (DocCache.get cfg env st source).2.cache = st.cache) := by
  have hkey := DocCache.get_stale_eq_getMiss cfg env st source entry hsd hfind hstale
  cases hload : env.load source with
  | none =>
      have hred : DocCache.get cfg env st source =
          (none, DocCache.bumpMisses cfg (DocCache.bumpAccesses st)) := by
        simp [hkey, DocCache.getMiss, hload]
      rw [hred]
      refine ⟨?_, ?_, rfl, fun _ => ?_, fun res hres => ?_⟩
      · rw [show (none, DocCache.bumpMisses cfg (DocCache.bumpAccesses st)).2
            = DocCache.bumpMisses cfg (DocCache.bumpAccesses st) from rfl,
          DocCache.bumpMisses_misses cfg _ hstats]
        rfl
      · rw [show (none, DocCache.bumpMisses cfg (DocCache.bumpAccesses st)).2
            = DocCache.bumpMisses cfg (DocCache.bumpAccesses st) from rfl,
          DocCache.bumpMisses_hits]
        rfl
      · rw [show (none, DocCache.bumpMisses cfg (DocCache.bumpAccesses st)).2
            = DocCache.bumpMisses cfg (DocCache.bumpAccesses st) from rfl,
          DocCache.bumpMisses_cache]
        rfl
      · exact absurd hres (by simp)
  | some res =>
      cases hres : res.success with
      | true =>
          have hred : DocCache.get cfg env st source =
              (some res, (DocCache.put cfg env
                (DocCache.bumpMisses cfg (DocCache.bumpAccesses st)) source res).2) := by
            simp [hkey, DocCache.getMiss, hload, hres]
          rw [hred]
          refine ⟨?_, ?_, rfl, fun hcontra => ?_, fun res2 hres2 hfail => ?_⟩
          · rw [show (some res, (DocCache.put cfg env
                  (DocCache.bumpMisses cfg (DocCache.bumpAccesses st)) source res).2).2
                = (DocCache.put cfg env
                  (DocCache.bumpMisses cfg (DocCache.bumpAccesses st)) source res).2 from rfl,
              DocCache.put_misses, DocCache.bumpMisses_misses cfg _ hstats]
            rfl
          · rw [show (some res, (DocCache.put cfg env
                  (DocCache.bumpMisses cfg (DocCache.bumpAccesses st)) source res).2).2
                = (DocCache.put cfg env
                  (DocCache.bumpMisses cfg (DocCache.bumpAccesses st)) source res).2 from rfl,
              DocCache.put_hits, DocCache.bumpMisses_hits]
            rfl
          · exact absurd hcontra (by simp)
          · have hinj : res = res2 := by injection hres2
            subst hinj
            rw [hres] at hfail
            exact absurd hfail (by simp)
      | false =>
          have hred : DocCache.get cfg env st source =
              (some res, DocCache.bumpMisses cfg (DocCache.bumpAccesses st)) := by
            simp [hkey, DocCache.getMiss, hload, hres]
          rw [hred]
          refine ⟨?_, ?_, rfl, fun hcontra => ?_, fun res2 _ _ => ?_⟩
          · rw [show (some res, DocCache.bumpMisses cfg (DocCache.bumpAccesses st)).2
                = DocCache.bumpMisses cfg (DocCache.bumpAccesses st) from rfl,
              DocCache.bumpMisses_misses cfg _ hstats]
            rfl
          · rw [show (some res, DocCache.bumpMisses cfg (DocCache.bumpAccesses st)).2
                = DocCache.bumpMisses cfg (DocCache.bumpAccesses st) from rfl,
              DocCache.bumpMisses_hits]
            rfl
          · exact absurd hcontra (by simp)
          · rw [show (some res, DocCache.bumpMisses cfg (DocCache.bumpAccesses st)).2
                = DocCache.bumpMisses cfg (DocCache.bumpAccesses st) from rfl,
              DocCache.bumpMisses_cache]
            rfl

/-- Witness for cacheGet_stale_is_miss_amended at the concrete stale
scenario whose reload fails. -/
theorem cacheGet_stale_is_miss_amended_witness :
    ((DocCache.put DocCache.cfg1MiB DocCache.envStaleBefore {} "f"
        DocCache.resStaleV1).2.shutdown = false
      ∧ DocCache.cfg1MiB.enableStats = true
      ∧ DocCache.odFind (DocCache.put DocCache.cfg1MiB DocCache.envStaleBefore {} "f"
          DocCache.resStaleV1).2.cache
          (DocCache.makeCacheKey DocCache.envStaleAfter "f") = some DocCache.entryStaleV1
      ∧ DocCache.entryStaleV1.is_stale DocCache.envStaleAfter.fs "f" = true)
  ∧ (((DocCache.get DocCache.cfg1MiB DocCache.envStaleAfter
        (DocCache.put DocCache.cfg1MiB DocCache.envStaleBefore {} "f"
          DocCache.resStaleV1).2 "f").2.stats.misses =
        (DocCache.put DocCache.cfg1MiB DocCache.envStaleBefore {} "f"
          DocCache.resStaleV1).2.stats.misses + 1)
    ∧ ((DocCache.get DocCache.cfg1MiB DocCache.envStaleAfter
        (DocCache.put DocCache.cfg1MiB DocCache.envStaleBefore {} "f"
          DocCache.resStaleV1).2 "f").2.stats.hits =
        (DocCache.put DocCache.cfg1MiB DocCache.envStaleBefore {} "f"
          DocCache.resStaleV1).2.stats.hits)
    ∧ ((DocCache.get DocCache.cfg1MiB DocCache.envStaleAfter
        (DocCache.put DocCache.cfg1MiB DocCache.envStaleBefore {} "f"
          DocCache.resStaleV1).2 "f").1 = DocCache.envStaleAfter.load "f")
    ∧ (DocCache.envStaleAfter.load "f" = none →
        (DocCache.get DocCache.cfg1MiB DocCache.envStaleAfter
          (DocCache.put DocCache.cfg1MiB DocCache.envStaleBefore {} "f"
            DocCache.resStaleV1).2 "f").2.cache =
          (DocCache.put DocCache.cfg1MiB DocCache.envStaleBefore {} "f"
            DocCache.resStaleV1).2.cache)
    ∧ (∀ res, DocCache.envStaleAfter.load "f" = some res → res.success = false →
        (DocCache.get DocCache.cfg1MiB DocCache.envStaleAfter
          (DocCache.put DocCache.cfg1MiB DocCache.envStaleBefore {} "f"
            DocCache.resStaleV1).2 "f").2.cache =
          (DocCache.put DocCache.cfg1MiB DocCache.envStaleBefore {} "f"
            DocCache.resStaleV1).2.cache)) :=
  ⟨⟨by decide, by decide, by decide, by decide⟩,
    cacheGet_stale_is_miss_amended DocCache.cfg1MiB DocCache.envStaleAfter
      (DocCache.put DocCache.cfg1MiB DocCache.envStaleBefore {} "f" DocCache.resStaleV1).2
      "f" DocCache.entryStaleV1 (by decide) (by decide) (by decide) (by decide)⟩

/-- Claim C5 (counterexample): with f cached at mtime 5 and the file
modified to mtime 9, a get whose reload fails counts a miss and returns
none, yet the stale entry is still resident afterwards — the claim says
it would have been dropped from the cache. -/
theorem cacheGet_stale_not_dropped_counterexample :
    ((DocCache.odFind (DocCache.get DocCache.cfg1MiB DocCache.envStaleAfter
        (DocCache.put DocCache.cfg1MiB DocCache.envStaleBefore {} "f"
          DocCache.resStaleV1).2 "f").2.cache "f") = some DocCache.entryStaleV1)
  ∧ ((DocCache.get DocCache.cfg1MiB DocCache.envStaleAfter
        (DocCache.put DocCache.cfg1MiB DocCache.envStaleBefore {} "f"
          DocCache.resStaleV1).2 "f").2.stats.misses = 1)
  ∧ ((DocCache.get DocCache.cfg1MiB DocCache.envStaleAfter
        (DocCache.put DocCache.cfg1MiB DocCache.envStaleBefore {} "f"
          DocCache.resStaleV1).2 "f").1 = none) := by
  decide

namespace BLPool

/-- State of FileLoaderThread observed by add_file: the priority queue
contents (priority, enqueue time, path), the set of paths with an active
LoaderWorker, and the batch total counter. -/
structure PoolState where
  queue : List (Nat × Nat × String) := []
  activeWorkers : List String := []
  totalTasks : Nat := 0
  deriving DecidableEq, Repr

/-- FileLoaderThread.add_file: ignore the admission when the path has an
active worker, otherwise enqueue and count it. The queue check the claim
describes does not exist in the source. -/
def addFile (st : PoolState) (filePath : String) (priority : Nat) (t : Nat) : PoolState :=
  if filePath ∈ st.activeWorkers then st
  else { st with queue := st.queue ++ [(priority, t, filePath)],
                 totalTasks := st.totalTasks + 1 }

/-- Priority constants of FileLoaderThread. -/
def PRIORITY_NORMAL : Nat := 5

end BLPool

/-- Claim C7 (amended): an add_file for a source whose LoaderWorker is
currently in flight is silently ignored — queue, worker set and batch
total counter are all unchanged. A source that is merely waiting in the
priority queue is not deduplicated: the duplicate admission enqueues a
second queue item and increments the batch total counter. -/
theorem poolAddFile_inflight_dedup_amended (st : BLPool.PoolState) (filePath : String)
    (priority t : Nat) (hin : filePath ∈ st.activeWorkers) :
    BLPool.addFile st filePath priority t = st := by
  rw [BLPool.addFile, if_pos hin]

/-- Witness for poolAddFile_inflight_dedup_amended: the path a has an
in-flight worker and its re-admission changes nothing. -/
theorem poolAddFile_inflight_dedup_amended_witness :
    "a" ∈ ({ queue := [], activeWorkers := ["a"], totalTasks := 1 } :
        BLPool.PoolState).activeWorkers
  ∧ BLPool.addFile { queue := [], activeWorkers := ["a"], totalTasks := 1 } "a"
      BLPool.PRIORITY_NORMAL 3 =
      { queue := [], activeWorkers := ["a"], totalTasks := 1 } :=
  ⟨by decide,
    poolAddFile_inflight_dedup_amended
      { queue := [], activeWorkers := ["a"], totalTasks := 1 } "a"
      BLPool.PRIORITY_NORMAL 3 (by decide)⟩

/-- Claim C7 (counterexample): with no worker in flight, admitting the
same path twice leaves two queue items and a batch total of 2 — the
second admission is not ignored, contradicting the claim for sources that
are already queued but not yet in flight. -/
theorem poolAddFile_queued_duplicate_counterexample :
    (BLPool.addFile (BLPool.addFile {} "a" BLPool.PRIORITY_NORMAL 0) "a"
        BLPool.PRIORITY_NORMAL 1).queue =
      [(5, 0, "a"), (5, 1, "a")]
  ∧ (BLPool.addFile (BLPool.addFile {} "a" BLPool.PRIORITY_NORMAL 0) "a"
        BLPool.PRIORITY_NORMAL 1).totalTasks = 2 := by
  decide

namespace DPService

open DocModel

/-- External world of DocumentProcessingService: whether the registry has
a loader for a source, and what load_complete returns there. -/
structure SvcEnv where
  hasLoader : String → Bool
  loadComplete : String → LoadResult

/-- Observable state of DocumentProcessingService.load_async: the keys of
_active_loads, the tasks submitted to the executor and not yet run, the
number of loader invocations (load_complete calls), and the callback
deliveries per operation. -/
structure SvcState where
  activeLoads : List String := []
  pendingTasks : List (String × String) := []
  loaderInvocations : Nat := 0
  completions : List (String × LoadResult) := []
  errorCalls : List String := []
  deriving DecidableEq, Repr

/-- Python dict key insertion: adding an existing key keeps it in place. -/
def keyInsert (l : List String) (k : String) : List String :=
  if k ∈ l then l else l ++ [k]

/-- The operation id string built by load_async from the source and the
current clock value. -/
def operationId (source : String) (t : Nat) : String :=
  "load_" ++ source ++ "_" ++ toString t

/-- DocumentProcessingService.load_async: build a fresh operation id,
submit the load_task closure, and record the future under that id. No
lookup for an existing in-flight load of the same source happens. -/
def loadAsync (st : SvcState) (source : String) (t : Nat) : String × SvcState :=
  let oid := operationId source t
  (oid, { st with pendingTasks := st.pendingTasks ++ [(oid, source)],
                  activeLoads := keyInsert st.activeLoads oid })

/-- Execution of one submitted load_task: look up a loader; with one,
invoke load_complete once and deliver on_complete; without one, deliver
on_error. The finally block removes the operation from _active_loads. -/
def runLoadTask (env : SvcEnv) (st : SvcState) (oid source : String) : SvcState :=
  let st1 :=
    if env.hasLoader source then
      { st with loaderInvocations := st.loaderInvocations + 1,
                completions := st.completions ++ [(oid, env.loadComplete source)] }
    else
      { st with errorCalls := st.errorCalls ++ [oid] }
  { st1 with activeLoads := st1.activeLoads.filter (fun k => k ≠ oid),
             pendingTasks := st1.pendingTasks.filter (fun p => p.1 ≠ oid) }

/-- Environment in which every source has a loader producing an empty
successful result. -/
def envAllLoaders : SvcEnv :=
  { hasLoader := fun _ => true,
    loadComplete := fun s => { success := true, content := ["data"],
                               metadata := some { source := s, reprSize := 1 } } }

end DPService

/-- Claim C1 (counterexample): two load_async calls for source s while
the first operation is still in flight create two distinct operation ids
and two submitted tasks, and running both tasks invokes the underlying
loader twice — not at most once, and the second call does not attach its
callbacks to the existing operation. -/
theorem loadAsync_dedup_counterexample :
    (DPService.loadAsync (DPService.loadAsync {} "s" 0).2 "s" 1).2.activeLoads =
      ["load_s_0", "load_s_1"]
  ∧ (DPService.loadAsync (DPService.loadAsync {} "s" 0).2 "s" 1).2.pendingTasks.length = 2
  ∧ (DPService.runLoadTask DPService.envAllLoaders
      (DPService.runLoadTask DPService.envAllLoaders
        (DPService.loadAsync (DPService.loadAsync {} "s" 0).2 "s" 1).2
        "load_s_0" "s")
      "load_s_1" "s").loaderInvocations = 2 := by
  decide

/-- Claim C1 (amended): load_async performs no per-source deduplication:
every call, including one made while a load for the same source is in
flight, registers a fresh operation and submits an independent task, and
every task run with an available loader invokes load_complete exactly
once and delivers the result to its own completion callback only. -/
theorem loadAsync_no_dedup_amended (st : DPService.SvcState) (source : String) (t : Nat)
    (hfresh : DPService.operationId source t ∉ st.activeLoads) :
    ((DPService.loadAsync st source t).2.activeLoads.length = st.activeLoads.length + 1)
  ∧ ((DPService.loadAsync st source t).2.pendingTasks.length = st.pendingTasks.length + 1)
  ∧ (∀ (env : DPService.SvcEnv) (oid src : String), env.hasLoader src = true →
      (DPService.runLoadTask env st oid src).loaderInvocations = st.loaderInvocations + 1
      ∧ (DPService.runLoadTask env st oid src).completions =
          st.completions ++ [(oid, env.loadComplete src)]) := by
  refine ⟨?_, ?_, ?_⟩
  · rw [DPService.loadAsync]
    simp [DPService.keyInsert, hfresh]
  · rw [DPService.loadAsync]
    simp
  · intro env oid src hload
    rw [DPService.runLoadTask]
    simp [hload]

/-- Witness for loadAsync_no_dedup_amended while an operation for the
same source is already in flight. -/
theorem loadAsync_no_dedup_amended_witness :
    DPService.operationId "s" 1 ∉
      ({ activeLoads := ["load_s_0"], pendingTasks := [("load_s_0", "s")] } :
        DPService.SvcState).activeLoads
  ∧ (((DPService.loadAsync
        { activeLoads := ["load_s_0"], pendingTasks := [("load_s_0", "s")] } "s"
        1).2.activeLoads.length =
      ({ activeLoads := ["load_s_0"], pendingTasks := [("load_s_0", "s")] } :
        DPService.SvcState).activeLoads.length + 1)
    ∧ ((DPService.loadAsync
        { activeLoads := ["load_s_0"], pendingTasks := [("load_s_0", "s")] } "s"
        1).2.pendingTasks.length =
      ({ activeLoads := ["load_s_0"], pendingTasks := [("load_s_0", "s")] } :
        DPService.SvcState).pendingTasks.length + 1)
    ∧ (∀ (env : DPService.SvcEnv) (oid src : String), env.hasLoader src = true →
        (DPService.runLoadTask env
            { activeLoads := ["load_s_0"], pendingTasks := [("load_s_0", "s")] } oid
            src).loaderInvocations =
          ({ activeLoads := ["load_s_0"], pendingTasks := [("load_s_0", "s")] } :
            DPService.SvcState).loaderInvocations + 1
        ∧ (DPService.runLoadTask env
            { activeLoads := ["load_s_0"], pendingTasks := [("load_s_0", "s")] } oid
            src).completions =
          ({ activeLoads := ["load_s_0"], pendingTasks := [("load_s_0", "s")] } :
            DPService.SvcState).completions ++ [(oid, env.loadComplete src)])) :=
  ⟨by decide,
    loadAsync_no_dedup_amended
      { activeLoads := ["load_s_0"], pendingTasks := [("load_s_0", "s")] } "s" 1
      (by decide)⟩

namespace LoaderWorker

/-- Outcome of one _load_file attempt: a successful result dict, a
FileNotFoundError, a PermissionError, or any other exception. -/
inductive AttemptOutcome
  | ok (content : String) (metaSize : Nat)
  | fileNotFound (msg : String)
  | permissionDenied (msg : String)
  | failure (msg : String)
  deriving DecidableEq, Repr

/-- Return tuple of LoaderWorker.load together with its observable trace:
the backoff sleeps performed, in order, and the number of _load_file
invocations. -/
structure RunOut where
  success : Bool
  result : Option (String × Nat)
  error : Option String
  sleeps : List Nat
  invocations : Nat
  deriving DecidableEq, Repr

/-- The attempt loop of LoaderWorker.load from attempt index i onward,
carrying the accumulated last_error. `beh` gives the outcome of the
attempt at each index; `cancelFlag` is the value of _cancelled read
before each attempt. -/
def loadFrom (maxRetries backoffBase : Nat) (beh : Nat → AttemptOutcome)
    (cancelFlag : Nat → Bool) (i : Nat) (lastError : Option String) : RunOut :=
  if _h : i < maxRetries then
    if cancelFlag i then
      { success := false, result := none, error := some "Load cancelled",
        sleeps := [], invocations := 0 }
    else
      match beh i with
      | .ok c m =>
          { success := true, result := some (c, m), error := none,
            sleeps := [], invocations := 1 }
      | .fileNotFound msg =>
          { success := false, result := none,
            error := some ("File not found: " ++ msg), sleeps := [], invocations := 1 }
      | .permissionDenied msg =>
          { success := false, result := none,
            error := some ("Permission denied: " ++ msg), sleeps := [], invocations := 1 }
      | .failure msg =>
          let rest := loadFrom maxRetries backoffBase beh cancelFlag (i + 1)
            (some ("Load error: " ++ msg))
          { success := rest.success, result := rest.result, error := rest.error,
            sleeps := (if i < maxRetries - 1 then [backoffBase * 2 ^ i] else [])
              ++ rest.sleeps,
            invocations := 1 + rest.invocations }
  else
    { success := false, result := none, error := lastError, sleeps := [], invocations := 0 }
termination_by maxRetries - i

/-- LoaderWorker.load. -/
def load (maxRetries backoffBase : Nat) (beh : Nat → AttemptOutcome)
    (cancelFlag : Nat → Bool) : RunOut :=
  loadFrom maxRetries backoffBase beh cancelFlag 0 none

/-- The failure message of the attempt at index j (used to express the
accumulated last_error along an all-retryable prefix). -/
def failMsg (beh : Nat → AttemptOutcome) (j : Nat) : String :=
  match beh j with
  | .failure m => m
  | _ => ""

/-- The value of last_error on entry to attempt i along an all-retryable
prefix. -/
def lastErrAt (beh : Nat → AttemptOutcome) : Nat → Option String
  | 0 => none
  | Nat.succ j => some ("Load error: " ++ failMsg beh j)

/-- Prefix effect of k retryable attempts: the backoff sleeps for the
attempts below k (capped by the last attempt, which never sleeps) and
their k loader invocations. -/
def prependRun (bb k cap : Nat) (r : RunOut) : RunOut :=
  { r with sleeps := (List.range (min k cap)).map (fun j => bb * 2 ^ j) ++ r.sleeps,
           invocations := k + r.invocations }

theorem loadFrom_exhausted (mr bb : Nat) (beh : Nat → AttemptOutcome)
    (cancelFlag : Nat → Bool) (i : Nat) (lastError : Option String) (hi : ¬ i < mr) :
    loadFrom mr bb beh cancelFlag i lastError =
      { success := false, result := none, error := lastError, sleeps := [],
        invocations := 0 } := by
  rw [loadFrom, dif_neg hi]

theorem loadFrom_cancelled (mr bb : Nat) (beh : Nat → AttemptOutcome)
    (cancelFlag : Nat → Bool) (i : Nat) (lastError : Option String)
    (hi : i < mr) (hc : cancelFlag i = true) :
    loadFrom mr bb beh cancelFlag i lastError =
      { success := false, result := none, error := some "Load cancelled", sleeps := [],
        invocations := 0 } := by
  rw [loadFrom, dif_pos hi, if_pos hc]

theorem loadFrom_fileNotFound (mr bb : Nat) (beh : Nat → AttemptOutcome)
    (cancelFlag : Nat → Bool) (i : Nat) (lastError : Option String) (msg : String)
    (hi : i < mr) (hc : cancelFlag i = false) (hb : beh i = .fileNotFound msg) :
    loadFrom mr bb beh cancelFlag i lastError =
      { success := false, result := none, error := some ("File not found: " ++ msg),
        sleeps := [], invocations := 1 } := by
  rw [loadFrom, dif_pos hi, if_neg (by simp [hc]), hb]

theorem loadFrom_permissionDenied (mr bb : Nat) (beh : Nat → AttemptOutcome)
    (cancelFlag : Nat → Bool) (i : Nat) (lastError : Option String) (msg : String)
    (hi : i < mr) (hc : cancelFlag i = false) (hb : beh i = .permissionDenied msg) :
    loadFrom mr bb beh cancelFlag i lastError =
      { success := false, result := none, error := some ("Permission denied: " ++ msg),
        sleeps := [], invocations := 1 } := by
  rw [loadFrom, dif_pos hi, if_neg (by simp [hc]), hb]

theorem loadFrom_failure_step (mr bb : Nat) (beh : Nat → AttemptOutcome)
    (cancelFlag : Nat → Bool) (i : Nat) (lastError : Option String) (msg : String)
    (hi : i < mr) (hc : cancelFlag i = false) (hb : beh i = .failure msg) :
    loadFrom mr bb beh cancelFlag i lastError =
      { success := (loadFrom mr bb beh cancelFlag (i + 1)
            (some ("Load error: " ++ msg))).success,
        result := (loadFrom mr bb beh cancelFlag (i + 1)
            (some ("Load error: " ++ msg))).result,
        error := (loadFrom mr bb beh cancelFlag (i + 1)
            (some ("Load error: " ++ msg))).error,
        sleeps := (if i < mr - 1 then [bb * 2 ^ i] else [])
          ++ (loadFrom mr bb beh cancelFlag (i + 1)
            (some ("Load error: " ++ msg))).sleeps,
        invocations := 1 + (loadFrom mr bb beh cancelFlag (i + 1)
            (some ("Load error: " ++ msg))).invocations } := by
  rw [loadFrom, dif_pos hi, if_neg (by simp [hc]), hb]

/-- Along an all-retryable uncancelled prefix of i attempts, a run of
load is exactly that prefix (its sleeps and invocations) followed by the
loop from attempt i with the accumulated last_error. -/
theorem loadFrom_retryPrelude (mr bb : Nat) (beh : Nat → AttemptOutcome)
    (cancelFlag : Nat → Bool) :
    ∀ i, i ≤ mr →
      (∀ j, j < i → cancelFlag j = false ∧ ∃ m, beh j = AttemptOutcome.failure m) →
      load mr bb beh cancelFlag =
        prependRun bb i (mr - 1) (loadFrom mr bb beh cancelFlag i (lastErrAt beh i)) := by
  intro i
  induction i with
  | zero =>
      intro _ _
      rw [load, prependRun]
      simp [lastErrAt]
  | succ i ih =>
      intro hle hgood
      have hi : i < mr := Nat.lt_of_succ_le hle
      obtain ⟨hc, m, hb⟩ := hgood i (Nat.lt_succ_self i)
      have hrest : load mr bb beh cancelFlag =
          prependRun bb i (mr - 1) (loadFrom mr bb beh cancelFlag i (lastErrAt beh i)) :=
        ih (Nat.le_of_lt hi) (fun j hj => hgood j (Nat.lt_succ_of_lt hj))
      rw [hrest,
        loadFrom_failure_step mr bb beh cancelFlag i (lastErrAt beh i) m hi hc hb]
      have hlast : lastErrAt beh (i + 1) = some ("Load error: " ++ m) := by
        rw [lastErrAt, failMsg, hb]
      rw [hlast, prependRun, prependRun]
      simp only [RunOut.mk.injEq]
      refine ⟨trivial, trivial, trivial, ?_, by omega⟩
      by_cases hcap : i < mr - 1
      · have h1 : min i (mr - 1) = i := Nat.min_eq_left (Nat.le_of_lt hcap)
        have h2 : min (i + 1) (mr - 1) = i + 1 := Nat.min_eq_left hcap
        rw [h1, h2, if_pos hcap, List.range_succ]
        simp
      · have h1 : min i (mr - 1) = mr - 1 := by omega
        have h2 : min (i + 1) (mr - 1) = mr - 1 := by omega
        rw [h1, h2, if_neg hcap]
        simp

end LoaderWorker

/-- Claim C6: for LoaderWorker.load, along any prefix of i uncancelled
retryable-failure attempts: a FileNotFound or PermissionDenied outcome at
attempt i ends the loop immediately with a failure tuple after exactly
i+1 loader invocations; if all max_retries attempts fail retryably the
loop performs exactly max_retries invocations with the backoff sleeps
backoff_base * 2^attempt between consecutive attempts and reports the
last error; and a cancellation flag observed before attempt i
short-circuits with the cancelled outcome after exactly i invocations. -/
theorem loaderWorker_retry_policy (mr bb : Nat) (beh : Nat → LoaderWorker.AttemptOutcome)
    (cancelFlag : Nat → Bool) (i : Nat)
    (hpre : ∀ j, j < i →
      cancelFlag j = false ∧ ∃ m, beh j = LoaderWorker.AttemptOutcome.failure m) :
    (∀ msg, i < mr → cancelFlag i = false →
        beh i = LoaderWorker.AttemptOutcome.fileNotFound msg →
        LoaderWorker.load mr bb beh cancelFlag =
          { success := false, result := none,
            error := some ("File not found: " ++ msg),
            sleeps := (List.range i).map (fun j => bb * 2 ^ j), invocations := i + 1 })
  ∧ (∀ msg, i < mr → cancelFlag i = false →
        beh i = LoaderWorker.AttemptOutcome.permissionDenied msg →
        LoaderWorker.load mr bb beh cancelFlag =
          { success := false, result := none,
            error := some ("Permission denied: " ++ msg),
            sleeps := (List.range i).map (fun j => bb * 2 ^ j), invocations := i + 1 })
  ∧ (∀ msg, i = mr → 0 < mr → beh (mr - 1) = LoaderWorker.AttemptOutcome.failure msg →
        LoaderWorker.load mr bb beh cancelFlag =
          { success := false, result := none,
            error := some ("Load error: " ++ msg),
            sleeps := (List.range (mr - 1)).map (fun j => bb * 2 ^ j),
            invocations := mr })
  ∧ (i < mr → cancelFlag i = true →
        LoaderWorker.load mr bb beh cancelFlag =
          { success := false, result := none, error := some "Load cancelled",
            sleeps := (List.range i).map (fun j => bb * 2 ^ j), invocations := i }) := by
  refine ⟨?_, ?_, ?_, ?_⟩
  · intro msg hi hc hb
    rw [LoaderWorker.loadFrom_retryPrelude mr bb beh cancelFlag i (Nat.le_of_lt hi) hpre,
      LoaderWorker.loadFrom_fileNotFound mr bb beh cancelFlag i _ msg hi hc hb,
      LoaderWorker.prependRun]
    have hmin : min i (mr - 1) = i := by omega
    rw [hmin]
    simp
  · intro msg hi hc hb
    rw [LoaderWorker.loadFrom_retryPrelude mr bb beh cancelFlag i (Nat.le_of_lt hi) hpre,
      LoaderWorker.loadFrom_permissionDenied mr bb beh cancelFlag i _ msg hi hc hb,
      LoaderWorker.prependRun]
    have hmin : min i (mr - 1) = i := by omega
    rw [hmin]
    simp
  · intro msg hieq hpos hb
    have hpre2 : ∀ j, j < mr →
        cancelFlag j = false ∧ ∃ m, beh j = LoaderWorker.AttemptOutcome.failure m := by
      rw [← hieq]; exact hpre
    rw [LoaderWorker.loadFrom_retryPrelude mr bb beh cancelFlag mr (Nat.le_refl mr) hpre2,
      LoaderWorker.loadFrom_exhausted mr bb beh cancelFlag mr _ (Nat.lt_irrefl mr),
      LoaderWorker.prependRun]
    have hmin : min mr (mr - 1) = mr - 1 := by omega
    rw [hmin]
    have hlast : LoaderWorker.lastErrAt beh mr = some ("Load error: " ++ msg) := by
      cases mr with
      | zero => omega
      | succ n =>
          rw [LoaderWorker.lastErrAt, LoaderWorker.failMsg]
          have hn : n + 1 - 1 = n := rfl
          rw [hn] at hb
          rw [hb]
    rw [hlast]
    simp
  · intro hi hc
    rw [LoaderWorker.loadFrom_retryPrelude mr bb beh cancelFlag i (Nat.le_of_lt hi) hpre,
      LoaderWorker.loadFrom_cancelled mr bb beh cancelFlag i _ hi hc,
      LoaderWorker.prependRun]
    have hmin : min i (mr - 1) = i := by omega
    rw [hmin]
    simp

/-- Witness for loaderWorker_retry_policy with an empty prefix and a
behavior that raises FileNotFoundError at its first attempt. -/
theorem loaderWorker_retry_policy_witness :
    (∀ j, j < 0 →
      (fun _ : Nat => false) j = false ∧
        ∃ m, (fun _ : Nat => LoaderWorker.AttemptOutcome.fileNotFound "gone") j =
          LoaderWorker.AttemptOutcome.failure m)
  ∧ ((∀ msg, 0 < 3 → (fun _ : Nat => false) 0 = false →
        (fun _ : Nat => LoaderWorker.AttemptOutcome.fileNotFound "gone") 0 =
          LoaderWorker.AttemptOutcome.fileNotFound msg →
        LoaderWorker.load 3 1 (fun _ => LoaderWorker.AttemptOutcome.fileNotFound "gone")
            (fun _ => false) =
          { success := false, result := none,
            error := some ("File not found: " ++ msg),
            sleeps := (List.range 0).map (fun j => 1 * 2 ^ j), invocations := 0 + 1 })
    ∧ (∀ msg, 0 < 3 → (fun _ : Nat => false) 0 = false →
        (fun _ : Nat => LoaderWorker.AttemptOutcome.fileNotFound "gone") 0 =
          LoaderWorker.AttemptOutcome.permissionDenied msg →
        LoaderWorker.load 3 1 (fun _ => LoaderWorker.AttemptOutcome.fileNotFound "gone")
            (fun _ => false) =
          { success := false, result := none,
            error := some ("Permission denied: " ++ msg),
            sleeps := (List.range 0).map (fun j => 1 * 2 ^ j), invocations := 0 + 1 })
    ∧ (∀ msg, 0 = 3 → 0 < 3 →
        (fun _ : Nat => LoaderWorker.AttemptOutcome.fileNotFound "gone") (3 - 1) =
          LoaderWorker.AttemptOutcome.failure msg →
        LoaderWorker.load 3 1 (fun _ => LoaderWorker.AttemptOutcome.fileNotFound "gone")
            (fun _ => false) =
          { success := false, result := none,
            error := some ("Load error: " ++ msg),
            sleeps := (List.range (3 - 1)).map (fun j => 1 * 2 ^ j), invocations := 3 })
    ∧ (0 < 3 → (fun _ : Nat => false) 0 = true →
        LoaderWorker.load 3 1 (fun _ => LoaderWorker.AttemptOutcome.fileNotFound "gone")
            (fun _ => false) =
          { success := false, result := none, error := some "Load cancelled",
            sleeps := (List.range 0).map (fun j => 1 * 2 ^ j), invocations := 0 })) :=
  ⟨fun j hj => absurd hj (Nat.not_lt_zero j),
    loaderWorker_retry_policy 3 1
      (fun _ => LoaderWorker.AttemptOutcome.fileNotFound "gone") (fun _ => false) 0
      (fun j hj => absurd hj (Nat.not_lt_zero j))⟩

namespace RowModel

/-- Metadata record produced by LazyFileSystemModel._load_metadata (with
the placeholder for stat failures folded into the oracle). -/
structure RowMeta where
  size : Nat := 0
  kindLabel : String := "Unknown"
  modified : Nat := 0
  isDir : Bool := false
  deriving DecidableEq, Repr

/-- LRUMetadataCache state: the OrderedDict (head least recent) with its
bound and hit or miss counters. -/
structure LRUCache where
  list : List (String × RowMeta) := []
  maxSize : Nat := 500
  hits : Nat := 0
  misses : Nat := 0
  deriving DecidableEq, Repr

/-- Lookup in the metadata OrderedDict. -/
def rmFind : List (String × RowMeta) → String → Option RowMeta
  | [], _ => none
  | (k, v) :: rest, key => if k = key then some v else rmFind rest key

/-- Deletion from the metadata OrderedDict. -/
def rmErase : List (String × RowMeta) → String → List (String × RowMeta)
  | [], _ => []
  | (k, v) :: rest, key => if k = key then rest else (k, v) :: rmErase rest key

/-- LRUMetadataCache.get: move a present entry to the most-recent end and
count a hit, else count a miss. -/
def lruGet (c : LRUCache) (key : String) : Option RowMeta × LRUCache :=
  match rmFind c.list key with
  | some v => (some v, { c with list := rmErase c.list key ++ [(key, v)],
                                hits := c.hits + 1 })
  | none => (none, { c with misses := c.misses + 1 })

/-- LRUMetadataCache.put: reinsert at the most-recent end and evict the
least recently used entry when over the bound. -/
def lruPut (c : LRUCache) (key : String) (v : RowMeta) : LRUCache :=
  let l1 := if (rmFind c.list key).isSome then rmErase c.list key else c.list
  let l2 := l1 ++ [(key, v)]
  { c with list := if l2.length > c.maxSize then l2.drop 1 else l2 }

/-- Batch size constant of LazyFileSystemModel. -/
def BATCH_SIZE : Nat := 50

/-- Prefetch look-ahead constant of LazyFileSystemModel. -/
def FETCH_DISTANCE : Nat := 5

/-- Observable state of a LazyFileSystemModel: directory listing, the
metadata LRU, the loaded-batch set and a counter of stat invocations
(each _load_metadata call performs one os.stat). Qt signal emissions
carry no model state and are not tracked. -/
structure ModelState where
  rootPath : String := ""
  entries : List String := []
  totalCount : Nat := 0
  cache : LRUCache := {}
  loadedBatches : List Nat := []
  statCalls : Nat := 0
  deriving DecidableEq, Repr

/-- The filesystem oracle behind _load_metadata (total: the source
returns a placeholder on stat failure). -/
structure FsEnv where
  stat : String → RowMeta

/-- LazyFileSystemModel._get_file_path. -/
def getFilePath (s : ModelState) (i : Nat) : String :=
  if i < s.entries.length then s.rootPath ++ "/" ++ s.entries.getD i "" else ""

/-- The per-entry loop body of _load_batch over the row indices of the
batch: consult the LRU (bumping hit or miss counters), and stat plus
cache the metadata when absent. -/
def loadBatchLoop (env : FsEnv) : ModelState → List Nat → ModelState
  | s, [] => s
  | s, i :: rest =>
      let path := getFilePath s i
      let s1 :=
        if path ≠ "" then
          match lruGet s.cache path with
          | (some _, c1) => { s with cache := c1 }
          | (none, c1) =>
              { s with cache := lruPut c1 path (env.stat path),
                       statCalls := s.statCalls + 1 }
        else s
      loadBatchLoop env s1 rest

/-- LazyFileSystemModel._load_batch: return immediately when the batch is
already loaded, otherwise load the metadata of its rows and mark it. -/
def loadBatch (env : FsEnv) (s : ModelState) (b : Nat) : ModelState :=
  if b ∈ s.loadedBatches then s
  else
    let start := b * BATCH_SIZE
    let stop := min (start + BATCH_SIZE) s.totalCount
    let s1 := loadBatchLoop env s ((List.range (stop - start)).map (fun j => start + j))
    { s1 with loadedBatches := b :: s1.loadedBatches }

/-- The loop of prefetch over batch indices, starting at b with n batches
to go: each index within the entry range is ensured loaded. -/
def prefetchLoop (env : FsEnv) : ModelState → Nat → Nat → ModelState
  | s, _, 0 => s
  | s, b, Nat.succ n =>
      let s1 := if b * BATCH_SIZE < s.totalCount then loadBatch env s b else s
      prefetchLoop env s1 (b + 1) n

/-- LazyFileSystemModel.prefetch: compute the batch window around the
visible range with Python floor division and load every batch in it. -/
def prefetch (env : FsEnv) (s : ModelState) (visibleStart visibleEnd : Int) : ModelState :=
  let startB : Int := max 0 ((visibleStart - (FETCH_DISTANCE : Int)).fdiv (BATCH_SIZE : Int))
  let endB : Int := (visibleEnd + (FETCH_DISTANCE : Int)).fdiv (BATCH_SIZE : Int) + 1
  prefetchLoop env s startB.toNat (endB - startB).toNat

theorem loadBatchLoop_frame (env : FsEnv) :
    ∀ (idx : List Nat) (s : ModelState),
      (loadBatchLoop env s idx).rootPath = s.rootPath ∧
      (loadBatchLoop env s idx).entries = s.entries ∧
      (loadBatchLoop env s idx).totalCount = s.totalCount ∧
      (loadBatchLoop env s idx).loadedBatches = s.loadedBatches := by
  intro idx
  induction idx with
  | nil => intro s; exact ⟨rfl, rfl, rfl, rfl⟩
  | cons i rest ih =>
      intro s
      rw [loadBatchLoop]
      split
      · split
        · exact ih _
        · exact ih _
      · exact ih _

theorem loadBatch_totalCount (env : FsEnv) (s : ModelState) (b : Nat) :
    (loadBatch env s b).totalCount = s.totalCount := by
  rw [loadBatch]
  split
  · rfl
  · exact (loadBatchLoop_frame env _ s).2.2.1

theorem loadBatch_mem (env : FsEnv) (s : ModelState) (b : Nat) :
    b ∈ (loadBatch env s b).loadedBatches := by
  rw [loadBatch]
  split
  · assumption
  · exact List.mem_cons_self _ _

theorem loadBatch_mono (env : FsEnv) (s : ModelState) (b x : Nat)
    (hx : x ∈ s.loadedBatches) : x ∈ (loadBatch env s b).loadedBatches := by
  rw [loadBatch]
  split
  · exact hx
  · refine List.mem_cons_of_mem _ ?_
    rw [(loadBatchLoop_frame env _ s).2.2.2]
    exact hx

theorem loadBatch_of_mem (env : FsEnv) (s : ModelState) (b : Nat)
    (hb : b ∈ s.loadedBatches) : loadBatch env s b = s := by
  rw [loadBatch, if_pos hb]

theorem prefetchLoop_totalCount (env : FsEnv) :
    ∀ (n b : Nat) (s : ModelState),
      (prefetchLoop env s b n).totalCount = s.totalCount := by
  intro n
  induction n with
  | zero => intro b s; rfl
  | succ n ih =>
      intro b s
      rw [prefetchLoop]
      split
      · rw [ih, loadBatch_totalCount]
      · exact ih _ _

theorem prefetchLoop_mono (env : FsEnv) :
    ∀ (n b x : Nat) (s : ModelState), x ∈ s.loadedBatches →
      x ∈ (prefetchLoop env s b n).loadedBatches := by
  intro n
  induction n with
  | zero => intro b x s hx; exact hx
  | succ n ih =>
      intro b x s hx
      rw [prefetchLoop]
      split
      · exact ih _ _ _ (loadBatch_mono env s b x hx)
      · exact ih _ _ _ hx

theorem prefetchLoop_covers (env : FsEnv) :
    ∀ (n b : Nat) (s : ModelState) (k : Nat), b ≤ k → k < b + n →
      k * BATCH_SIZE < s.totalCount →
      k ∈ (prefetchLoop env s b n).loadedBatches := by
  intro n
  induction n with
  | zero => intro b s k hbk hkn _; omega
  | succ n ih =>
      intro b s k hbk hkn hcond
      rw [prefetchLoop]
      by_cases hk : k = b
      · subst hk
        rw [if_pos hcond]
        exact prefetchLoop_mono env n (k + 1) k _ (loadBatch_mem env s k)
      · have hbk2 : b + 1 ≤ k := by omega
        have hkn2 : k < (b + 1) + n := by omega
        split
        · exact ih (b + 1) _ k hbk2 hkn2 (by rw [loadBatch_totalCount]; exact hcond)
        · exact ih (b + 1) _ k hbk2 hkn2 hcond

theorem prefetchLoop_stable (env : FsEnv) :
    ∀ (n b : Nat) (s : ModelState),
      (∀ k, b ≤ k → k < b + n → k * BATCH_SIZE < s.totalCount →
        k ∈ s.loadedBatches) →
      prefetchLoop env s b n = s := by
  intro n
  induction n with
  | zero => intro b s _; rfl
  | succ n ih =>
      intro b s hcov
      rw [prefetchLoop]
      by_cases hcond : b * BATCH_SIZE < s.totalCount
      · rw [if_pos hcond,
          loadBatch_of_mem env s b (hcov b (Nat.le_refl b) (by omega) hcond)]
        exact ih (b + 1) s (fun k hk1 hk2 hk3 => hcov k (by omega) (by omega) hk3)
      · rw [if_neg hcond]
        exact ih (b + 1) s (fun k hk1 hk2 hk3 => hcov k (by omega) (by omega) hk3)

end RowModel

/-- Claim C9: LazyFileSystemModel.prefetch is idempotent: calling it a
second time with the same range returns the state of the first call
unchanged — in particular the second call performs no stat (the stat
counter is part of the state), and the metadata cache and loaded-batch
set are untouched. -/
theorem rowModel_prefetch_idempotent (env : RowModel.FsEnv) (s : RowModel.ModelState)
    (visibleStart visibleEnd : Int) :
    RowModel.prefetch env (RowModel.prefetch env s visibleStart visibleEnd)
        visibleStart visibleEnd =
      RowModel.prefetch env s visibleStart visibleEnd := by
  rw [RowModel.prefetch, RowModel.prefetch]
  apply RowModel.prefetchLoop_stable
  intro k hk1 hk2 hk3
  apply RowModel.prefetchLoop_covers env _ _ s k hk1 hk2
  rw [RowModel.prefetchLoop_totalCount] at hk3
  exact hk3

namespace SL

open DocModel

/-- Raw bytes returned by one _read_chunk call. -/
abbrev ByteChunk := List Nat

/-- Streaming configuration of a UnifiedDocumentLoader. `sha256hex` is
the abstract digest of hashlib.sha256 over all bytes fed to the
accumulator. -/
structure LoaderConfig where
  enableChecksum : Bool := true
  sha256hex : List Nat → String

/-- Mutable per-stream state of a UnifiedDocumentLoader: error and
warning lists, extracted metadata, and the hash accumulator (the list of
raw bytes fed so far; none when checksumming is disabled). Progress
bookkeeping is wall-clock based and influences none of these fields, so
it is not tracked. -/
structure LoaderState where
  errors : List LoadError := []
  warnings : List LoadError := []
  metadata : Option DocumentMetadata := none
  hasher : Option (List Nat) := none
  deriving DecidableEq, Repr

/-- Behavior of the abstract loader methods for a given source:
can_handle, _extract_metadata and _open_source (raising is the error
case, with the exception text), the successful _read_chunk results in
order, and whether the read after them raises instead of signalling a
clean end of stream. -/
structure LoaderCore where
  canHandle : String → Bool
  extractMeta : String → Except String DocumentMetadata
  openSource : String → Except String Unit
  reads : String → List ByteChunk
  readFailure : String → Option String

/-- A _process_chunk implementation: decodes a raw chunk, possibly
adding warnings to the loader state. -/
abbrev ProcessFn := LoaderState → ByteChunk → String × LoaderState

/-- _add_error: recoverable mirrors `severity == ErrorSeverity.WARNING`. -/
def mkError (severity : ErrorSeverity) (message errorCode source : String) : LoadError :=
  { severity := severity, message := message, errorCode := errorCode, source := source,
    recoverable := decide (severity = ErrorSeverity.warning) }

/-- _add_warning. -/
def mkWarning (message errorCode source : String) : LoadError :=
  { severity := ErrorSeverity.warning, message := message, errorCode := errorCode,
    source := source, recoverable := true }

/-- The UNSUPPORTED_SOURCE error recorded when can_handle is false. -/
def unsupportedError (source : String) : LoadError :=
  mkError ErrorSeverity.error ("Cannot handle source: " ++ source)
    "UNSUPPORTED_SOURCE" source

/-- The LOAD_FAILED error recorded when the stream raises. -/
def loadFailedError (source msg : String) : LoadError :=
  mkError ErrorSeverity.error ("Failed to load document: " ++ msg) "LOAD_FAILED" source

/-- Append to _errors. -/
def addErr (st : LoaderState) (e : LoadError) : LoaderState :=
  { st with errors := st.errors ++ [e] }

/-- Append to _warnings. -/
def addWarn (st : LoaderState) (w : LoadError) : LoaderState :=
  { st with warnings := st.warnings ++ [w] }

/-- The chunk loop of load_stream: for each raw chunk, feed the hash
accumulator first, then decode via _process_chunk and yield the text. -/
def feedChunks (cfg : LoaderConfig) (process : ProcessFn) :
    LoaderState → List ByteChunk → List String × LoaderState
  | st, [] => ([], st)
  | st, raw :: rest =>
      let st1 := if cfg.enableChecksum && st.hasher.isSome then
          { st with hasher := st.hasher.map (fun acc => acc ++ raw) }
        else st
      let (txt, st2) := process st1 raw
      let (txts, st3) := feedChunks cfg process st2 rest
      (txt :: txts, st3)

/-- Materialized run of UnifiedDocumentLoader.load_stream: the yielded
chunks, the final loader state, and the exception text when the stream
raised. -/
structure StreamOut where
  chunks : List String
  state : LoaderState
  raised : Option String
  deriving DecidableEq, Repr

/-- UnifiedDocumentLoader.load_stream. On an unsupported source it
records UNSUPPORTED_SOURCE and ends without clearing the previous error
and warning lists; otherwise it clears them, resets the hash
accumulator, extracts metadata, opens the source, streams the chunks,
and finalizes the checksum only on clean exhaustion. The close in the
finally block is modelled as always succeeding. -/
def loadStream (cfg : LoaderConfig) (core : LoaderCore) (process : ProcessFn)
    (st0 : LoaderState) (source : String) : StreamOut :=
  if core.canHandle source = false then
    { chunks := [], state := addErr st0 (unsupportedError source), raised := none }
  else
    let st1 : LoaderState := { st0 with errors := [], warnings := [] }
    let st2 := if cfg.enableChecksum && st1.hasher.isSome then
        { st1 with hasher := some [] }
      else st1
    match core.extractMeta source with
    | Except.error e =>
        { chunks := [], state := addErr st2 (loadFailedError source e), raised := some e }
    | Except.ok md =>
        let st3 := { st2 with metadata := some md }
        match core.openSource source with
        | Except.error e =>
            { chunks := [], state := addErr st3 (loadFailedError source e),
              raised := some e }
        | Except.ok _ =>
            let (chunks, st4) := feedChunks cfg process st3 (core.reads source)
            match core.readFailure source with
            | some e =>
                { chunks := chunks, state := addErr st4 (loadFailedError source e),
                  raised := some e }
            | none =>
                let st5 :=
                  if cfg.enableChecksum && st4.hasher.isSome && st4.metadata.isSome then
                    { st4 with metadata := st4.metadata.map (fun m =>
                        { m with checksumSha256 := some (cfg.sha256hex (st4.hasher.getD [])) }) }
                  else st4
                { chunks := chunks, state := st5, raised := none }

/-- UnifiedDocumentLoader.load_complete: success iff the stream did not
raise and the error list stayed empty. -/
def loadComplete (cfg : LoaderConfig) (core : LoaderCore) (process : ProcessFn)
    (st0 : LoaderState) (source : String) : LoadResult × LoaderState :=
  let out := loadStream cfg core process st0 source
  ({ success := out.raised.isNone && out.state.errors.isEmpty,
     content := out.chunks,
     metadata := out.state.metadata,
     errors := out.state.errors,
     warnings := out.state.warnings,
     loadTime := 0 }, out.state)

/-- A process function that only touches the warning list leaves errors,
hasher and metadata of the final feed state untouched and accumulates the
concatenation of all raw chunks in the hash accumulator. -/
theorem feedChunks_state (cfg : LoaderConfig) (process : ProcessFn)
    (hck : cfg.enableChecksum = true)
    (hproc : ∀ s c, (process s c).2.errors = s.errors ∧ (process s c).2.hasher = s.hasher
      ∧ (process s c).2.metadata = s.metadata) :
    ∀ (raws : List ByteChunk) (st : LoaderState) (acc : List Nat),
      st.hasher = some acc →
      (feedChunks cfg process st raws).2.hasher = some (acc ++ raws.flatten)
      ∧ (feedChunks cfg process st raws).2.errors = st.errors
      ∧ (feedChunks cfg process st raws).2.metadata = st.metadata := by
  intro raws
  induction raws with
  | nil =>
      intro st acc hst
      refine ⟨?_, rfl, rfl⟩
      rw [feedChunks, hst]
      simp
  | cons raw rest ih =>
      intro st acc hst
      rw [feedChunks]
      have hsome : st.hasher.isSome = true := by rw [hst]; rfl
      rw [if_pos (by rw [hck, hsome]; rfl)]
      have h1 : ({ st with hasher := st.hasher.map (fun acc => acc ++ raw) } :
          LoaderState).hasher = some (acc ++ raw) := by
        rw [hst]; rfl
      obtain ⟨hperr, hphash, hpmeta⟩ :=
        hproc { st with hasher := st.hasher.map (fun acc => acc ++ raw) } raw
      have h2 : (process { st with hasher := st.hasher.map (fun acc => acc ++ raw) }
          raw).2.hasher = some (acc ++ raw) := by rw [hphash, h1]
      obtain ⟨ihh, ihe, ihm⟩ := ih _ _ h2
      refine ⟨?_, ?_, ?_⟩
      · rw [ihh]
        simp
      · rw [ihe, hperr]
      · rw [ihm, hpmeta]

end SL

namespace SL

open DocModel

/-- load_stream on an unsupported source: one UNSUPPORTED_SOURCE error
appended to the uncleaned error list, nothing else. -/
theorem loadStream_unsupported_eq (cfg : LoaderConfig) (core : LoaderCore)
    (process : ProcessFn) (st0 : LoaderState) (source : String)
    (h : core.canHandle source = false) :
    loadStream cfg core process st0 source =
      { chunks := [], state := addErr st0 (unsupportedError source), raised := none } := by
  rw [loadStream, if_pos h]

end SL

/-- Claim C4: for a streaming loader whose _process_chunk only adds
warnings (as the _process_chunk of TxtLoader, PdfLoader and CsvLoader
do) and whose _extract_metadata yields metadata without a checksum (as
all three do), with checksumming enabled: whenever load_complete reports
ok=true the metadata checksum equals the abstract SHA-256 digest of the
concatenation of the raw chunks read from the source — the accumulator
is reset at the start of the stream and fed every raw chunk before
decoding — and a stream aborted by a read failure leaves checksum_sha256
unset. -/
theorem loadStream_checksum_correct (cfg : SL.LoaderConfig) (core : SL.LoaderCore)
    (process : SL.ProcessFn) (st0 : SL.LoaderState) (source : String)
    (hck : cfg.enableChecksum = true)
    (hh : st0.hasher.isSome = true)
    (hproc : ∀ s c, (process s c).2.errors = s.errors ∧ (process s c).2.hasher = s.hasher
      ∧ (process s c).2.metadata = s.metadata)
    (hmeta : ∀ md, core.extractMeta source = Except.ok md → md.checksumSha256 = none) :
    ((SL.loadComplete cfg core process st0 source).1.success = true →
      ∃ md, (SL.loadComplete cfg core process st0 source).1.metadata = some md
        ∧ md.checksumSha256 = some (cfg.sha256hex (core.reads source).flatten))
  ∧ (∀ e md, core.canHandle source = true →
      core.extractMeta source = Except.ok md →
      core.openSource source = Except.ok () →
      core.readFailure source = some e →
      ∃ md2, (SL.loadStream cfg core process st0 source).state.metadata = some md2
        ∧ md2.checksumSha256 = none) := by
  constructor
  · intro hs
    by_cases hch : core.canHandle source = false
    · exfalso
      rw [SL.loadComplete] at hs
      rw [SL.loadStream_unsupported_eq cfg core process st0 source hch] at hs
      simp [SL.addErr] at hs
    · have hch2 : core.canHandle source = true := by
        cases h : core.canHandle source
        · exact absurd h hch
        · rfl
      cases hm : core.extractMeta source with
      | error e =>
          exfalso
          rw [SL.loadComplete] at hs
          simp [SL.loadStream, hch2, hm] at hs
      | ok md =>
          cases ho : core.openSource source with
          | error e =>
              exfalso
              rw [SL.loadComplete] at hs
              simp [SL.loadStream, hch2, hm, ho] at hs
          | ok u =>
              cases u
              cases hrf : core.readFailure source with
              | some e =>
                  exfalso
                  rw [SL.loadComplete] at hs
                  simp [SL.loadStream, hch2, hm, ho, hrf] at hs
              | none =>
                  obtain ⟨hfh, hfe, hfm⟩ := SL.feedChunks_state cfg process hck hproc
                    (core.reads source)
                    { errors := [], warnings := [], metadata := some md,
                      hasher := some [] } [] rfl
                  rw [SL.loadComplete]
                  simp [SL.loadStream, hch2, hm, ho, hrf, hck, hh, hfh, hfe, hfm]
  · intro e md hch2 hm ho hrf
    obtain ⟨hfh, hfe, hfm⟩ := SL.feedChunks_state cfg process hck hproc
      (core.reads source)
      { errors := [], warnings := [], metadata := some md,
        hasher := some [] } [] rfl
    refine ⟨md, ?_, hmeta md hm⟩
    simp [SL.loadStream, hch2, hm, ho, hrf, hck, hh, hfm, SL.addErr]

namespace SL

open DocModel

/-- Concrete checksum-enabled loader configuration (witness digest maps
the byte list to its length rendering). -/
def cfgW : LoaderConfig :=
  { enableChecksum := true, sha256hex := fun l => "h" ++ toString l.length }

/-- Concrete loader behavior: every source supported, fresh metadata,
two raw chunks, clean end of stream. -/
def coreW : LoaderCore :=
  { canHandle := fun _ => true,
    extractMeta := fun s => Except.ok { source := s },
    openSource := fun _ => Except.ok (),
    reads := fun _ => [[1, 2], [3]],
    readFailure := fun _ => none }

/-- Concrete _process_chunk that decodes every chunk to a fixed text. -/
def processW : ProcessFn := fun s _ => ("t", s)

/-- Loader state right after __init__ with checksumming on. -/
def stW : LoaderState := { hasher := some [] }

end SL

/-- Witness for loadStream_checksum_correct at a concrete two-chunk
stream. -/
theorem loadStream_checksum_correct_witness :
    (SL.cfgW.enableChecksum = true
      ∧ SL.stW.hasher.isSome = true
      ∧ (∀ s c, (SL.processW s c).2.errors = s.errors
          ∧ (SL.processW s c).2.hasher = s.hasher
          ∧ (SL.processW s c).2.metadata = s.metadata)
      ∧ (∀ md, SL.coreW.extractMeta "f" = Except.ok md → md.checksumSha256 = none))
  ∧ (((SL.loadComplete SL.cfgW SL.coreW SL.processW SL.stW "f").1.success = true →
        ∃ md, (SL.loadComplete SL.cfgW SL.coreW SL.processW SL.stW "f").1.metadata = some md
          ∧ md.checksumSha256 = some (SL.cfgW.sha256hex (SL.coreW.reads "f").flatten))
    ∧ (∀ e md, SL.coreW.canHandle "f" = true →
        SL.coreW.extractMeta "f" = Except.ok md →
        SL.coreW.openSource "f" = Except.ok () →
        SL.coreW.readFailure "f" = some e →
        ∃ md2,
          (SL.loadStream SL.cfgW SL.coreW SL.processW SL.stW "f").state.metadata = some md2
          ∧ md2.checksumSha256 = none)) :=
  ⟨⟨rfl, rfl, fun _ _ => ⟨rfl, rfl, rfl⟩,
      fun _ h => by injection h with h2; rw [← h2]⟩,
    loadStream_checksum_correct SL.cfgW SL.coreW SL.processW SL.stW "f" rfl rfl
      (fun _ _ => ⟨rfl, rfl, rfl⟩)
      (fun _ h => by injection h with h2; rw [← h2])⟩

namespace SL

open DocModel

/-- TxtLoader decoding configuration: primary encoding and the ordered
fallback list. -/
structure TxtConfig where
  encoding : String := "utf-8"
  fallbackEncodings : List String := ["latin-1", "cp1252"]

/-- Oracle for bytes.decode: strict decoding per encoding (none on
UnicodeDecodeError) and the total lossy decode with errors replace. -/
structure DecodeOracle where
  decode : String → ByteChunk → Option String
  decodeReplace : String → ByteChunk → String

/-- The ENCODING_FALLBACK warning TxtLoader._process_chunk emits before
trying a fallback encoding. -/
def fallbackWarn (enc : String) : LoadError :=
  mkWarning ("Falling back to " ++ enc ++ " encoding") "ENCODING_FALLBACK" "text_decoder"

/-- The LOSSY_DECODING warning emitted before the replace decode. -/
def lossyWarn : LoadError :=
  mkWarning "Using lossy decoding (replacing invalid characters)" "LOSSY_DECODING"
    "text_decoder"

/-- The fallback loop of TxtLoader._process_chunk: for each fallback
encoding, first emit the warning, then attempt the decode; after all
fallbacks fail, emit LOSSY_DECODING and decode with replacement. -/
def txtFallbackLoop (tc : TxtConfig) (dec : DecodeOracle) (chunk : ByteChunk) :
    List String → LoaderState → String × LoaderState
  | [], st => (dec.decodeReplace tc.encoding chunk, addWarn st lossyWarn)
  | f :: rest, st =>
      let st1 := addWarn st (fallbackWarn f)
      match dec.decode f chunk with
      | some s => (s, st1)
      | none => txtFallbackLoop tc dec chunk rest st1

/-- TxtLoader._process_chunk. -/
def txtProcessChunk (tc : TxtConfig) (dec : DecodeOracle) (st : LoaderState)
    (chunk : ByteChunk) : String × LoaderState :=
  match dec.decode tc.encoding chunk with
  | some s => (s, st)
  | none => txtFallbackLoop tc dec chunk tc.fallbackEncodings st

/-- Number of warnings in a list carrying a given error code. -/
def countCode (code : String) (l : List LoadError) : Nat :=
  (l.filter (fun w => w.errorCode = code)).length

/-- Number of fallback encodings attempted for a chunk: up to and
including the first that decodes, or all of them. -/
def fbAttemptCount (dec : DecodeOracle) (chunk : ByteChunk) : List String → Nat
  | [] => 0
  | f :: rest =>
      if (dec.decode f chunk).isSome then 1 else 1 + fbAttemptCount dec chunk rest

/-- ENCODING_FALLBACK warnings one _process_chunk call adds. -/
def fbWarnCount (tc : TxtConfig) (dec : DecodeOracle) (chunk : ByteChunk) : Nat :=
  if (dec.decode tc.encoding chunk).isSome then 0
  else fbAttemptCount dec chunk tc.fallbackEncodings

/-- LOSSY_DECODING warnings one _process_chunk call adds. -/
def lossyWarnCount (tc : TxtConfig) (dec : DecodeOracle) (chunk : ByteChunk) : Nat :=
  if (dec.decode tc.encoding chunk).isSome then 0
  else if tc.fallbackEncodings.any (fun f => (dec.decode f chunk).isSome) then 0 else 1

theorem countCode_append (code : String) (l1 l2 : List LoadError) :
    countCode code (l1 ++ l2) = countCode code l1 + countCode code l2 := by
  simp [countCode, List.filter_append]

theorem countCode_fallbackWarn (enc : String) :
    countCode "ENCODING_FALLBACK" [fallbackWarn enc] = 1 := by
  simp [countCode, fallbackWarn, mkWarning]

theorem countCode_fallbackWarn_lossy (enc : String) :
    countCode "LOSSY_DECODING" [fallbackWarn enc] = 0 := by
  simp [countCode, fallbackWarn, mkWarning]

theorem countCode_lossyWarn :
    countCode "LOSSY_DECODING" [lossyWarn] = 1 := by
  simp [countCode, lossyWarn, mkWarning]

theorem countCode_lossyWarn_fb :
    countCode "ENCODING_FALLBACK" [lossyWarn] = 0 := by
  simp [countCode, lossyWarn, mkWarning]

theorem txtFallbackLoop_counts (tc : TxtConfig) (dec : DecodeOracle) (chunk : ByteChunk) :
    ∀ (fbs : List String) (st : LoaderState),
      countCode "ENCODING_FALLBACK" (txtFallbackLoop tc dec chunk fbs st).2.warnings =
        countCode "ENCODING_FALLBACK" st.warnings + fbAttemptCount dec chunk fbs
      ∧ countCode "LOSSY_DECODING" (txtFallbackLoop tc dec chunk fbs st).2.warnings =
        countCode "LOSSY_DECODING" st.warnings +
          (if fbs.any (fun f => (dec.decode f chunk).isSome) then 0 else 1)
      ∧ (txtFallbackLoop tc dec chunk fbs st).2.errors = st.errors := by
  intro fbs
  induction fbs with
  | nil =>
      intro st
      refine ⟨?_, ?_, rfl⟩
      · rw [txtFallbackLoop]
        simp [addWarn, countCode_append, countCode_lossyWarn_fb, fbAttemptCount]
      · rw [txtFallbackLoop]
        simp [addWarn, countCode_append, countCode_lossyWarn]
  | cons f rest ih =>
      intro st
      rw [txtFallbackLoop]
      cases hdec : dec.decode f chunk with
      | some s =>
          refine ⟨?_, ?_, rfl⟩
          · rw [fbAttemptCount]
            simp [addWarn, countCode_append, countCode_fallbackWarn, hdec]
          · simp [addWarn, countCode_append, countCode_fallbackWarn_lossy, hdec]
      | none =>
          obtain ⟨ih1, ih2, ih3⟩ := ih (addWarn st (fallbackWarn f))
          refine ⟨?_, ?_, ?_⟩
          · rw [ih1, fbAttemptCount]
            simp [addWarn, countCode_append, countCode_fallbackWarn, hdec]
            omega
          · rw [ih2]
            simp [addWarn, countCode_append, countCode_fallbackWarn_lossy, hdec]
          · rw [ih3]
            rfl

end SL

/-- Claim C8 (amended): each _process_chunk call of the default text
loader whose primary decode fails emits one ENCODING_FALLBACK warning per
attempted fallback encoding — the warning precedes the attempt, so even
an unsuccessful fallback attempt emits one, and a stream of n failing
chunks accumulates n such warnings rather than one per stream; when
every fallback fails it additionally emits exactly one LOSSY_DECODING
warning; no call touches the error list, so decoding never terminates
the stream. -/
theorem txtDecode_warning_per_chunk_amended (tc : SL.TxtConfig) (dec : SL.DecodeOracle)
    (st : SL.LoaderState) (chunk : SL.ByteChunk) :
    SL.countCode "ENCODING_FALLBACK" (SL.txtProcessChunk tc dec st chunk).2.warnings =
      SL.countCode "ENCODING_FALLBACK" st.warnings + SL.fbWarnCount tc dec chunk
  ∧ SL.countCode "LOSSY_DECODING" (SL.txtProcessChunk tc dec st chunk).2.warnings =
      SL.countCode "LOSSY_DECODING" st.warnings + SL.lossyWarnCount tc dec chunk
  ∧ (SL.txtProcessChunk tc dec st chunk).2.errors = st.errors := by
  rw [SL.txtProcessChunk]
  cases hdec : dec.decode tc.encoding chunk with
  | some s =>
      refine ⟨?_, ?_, rfl⟩
      · simp [SL.fbWarnCount, hdec]
      · simp [SL.lossyWarnCount, hdec]
  | none =>
      obtain ⟨h1, h2, h3⟩ := SL.txtFallbackLoop_counts tc dec chunk tc.fallbackEncodings st
      refine ⟨?_, ?_, h3⟩
      · rw [h1]
        simp [SL.fbWarnCount, hdec]
      · rw [h2]
        simp [SL.lossyWarnCount, hdec]

namespace SL

open DocModel

/-- Default TxtLoader decoding configuration. -/
def tcX : TxtConfig := {}

/-- Decode oracle for a byte stream whose chunks fail utf-8 but decode
under the first fallback (latin-1). -/
def decX : DecodeOracle :=
  { decode := fun enc _ => if enc = "latin-1" then some "x" else none,
    decodeReplace := fun _ _ => "?" }

/-- A loader that rejects every source, with irrelevant other methods. -/
def coreUnsup : LoaderCore :=
  { canHandle := fun _ => false,
    extractMeta := fun s => Except.ok { source := s },
    openSource := fun _ => Except.ok (),
    reads := fun _ => [],
    readFailure := fun _ => none }

/-- Loader state carrying errors and warnings left over from a previous
failed load. -/
def stLeftover : LoaderState :=
  { errors := [mkError ErrorSeverity.error "boom" "READ_FAILED" "prev"],
    warnings := [mkWarning "w" "ENCODING_FALLBACK" "prev"],
    hasher := some [] }

end SL

/-- Claim C8 (counterexample): a two-chunk text stream whose chunks both
fail the primary encoding and decode under the first fallback emits two
ENCODING_FALLBACK warnings — one per chunk — while the stream still
completes successfully; the claim asserts exactly one such warning for
the whole stream. -/
theorem txtDecode_fallback_warning_counterexample :
    SL.countCode "ENCODING_FALLBACK"
      (SL.loadStream SL.cfgW SL.coreW (SL.txtProcessChunk SL.tcX SL.decX) SL.stW
        "f").state.warnings = 2
  ∧ (SL.loadStream SL.cfgW SL.coreW (SL.txtProcessChunk SL.tcX SL.decX) SL.stW
        "f").raised = none
  ∧ (SL.loadComplete SL.cfgW SL.coreW (SL.txtProcessChunk SL.tcX SL.decX) SL.stW
        "f").1.success = true := by
  decide

/-- Claim C10: when can_handle is false, load_stream yields no chunks
and does not raise; it appends a single UNSUPPORTED_SOURCE error to the
error list left over from the previous load without clearing it or the
warnings, so a following load_complete reports ok=false with the
accumulated errors. -/
theorem loadStream_unsupported_source_behaviour (cfg : SL.LoaderConfig)
    (core : SL.LoaderCore) (process : SL.ProcessFn) (st : SL.LoaderState)
    (source : String) (h : core.canHandle source = false) :
    (SL.loadStream cfg core process st source).chunks = []
  ∧ (SL.loadStream cfg core process st source).raised = none
  ∧ (SL.loadStream cfg core process st source).state.errors =
      st.errors ++ [SL.unsupportedError source]
  ∧ (SL.loadStream cfg core process st source).state.warnings = st.warnings
  ∧ (SL.loadComplete cfg core process st source).1.success = false
  ∧ (SL.loadComplete cfg core process st source).1.errors =
      st.errors ++ [SL.unsupportedError source] := by
  have he := SL.loadStream_unsupported_eq cfg core process st source h
  refine ⟨by rw [he], by rw [he], by rw [he]; rfl, by rw [he]; rfl, ?_, ?_⟩
  · rw [SL.loadComplete, he]
    simp [SL.addErr]
  · rw [SL.loadComplete, he]
    rfl

/-- Witness for loadStream_unsupported_source_behaviour: an unsupported
source hitting a loader state that still carries a previous READ_FAILED
error and an old warning. -/
theorem loadStream_unsupported_source_behaviour_witness :
    SL.coreUnsup.canHandle "f" = false
  ∧ ((SL.loadStream SL.cfgW SL.coreUnsup SL.processW SL.stLeftover "f").chunks = []
    ∧ (SL.loadStream SL.cfgW SL.coreUnsup SL.processW SL.stLeftover "f").raised = none
    ∧ (SL.loadStream SL.cfgW SL.coreUnsup SL.processW SL.stLeftover "f").state.errors =
        SL.stLeftover.errors ++ [SL.unsupportedError "f"]
    ∧ (SL.loadStream SL.cfgW SL.coreUnsup SL.processW SL.stLeftover "f").state.warnings =
        SL.stLeftover.warnings
    ∧ (SL.loadComplete SL.cfgW SL.coreUnsup SL.processW SL.stLeftover "f").1.success = false
    ∧ (SL.loadComplete SL.cfgW SL.coreUnsup SL.processW SL.stLeftover "f").1.errors =
        SL.stLeftover.errors ++ [SL.unsupportedError "f"]) :=
  ⟨rfl, loadStream_unsupported_source_behaviour SL.cfgW SL.coreUnsup SL.processW
    SL.stLeftover "f" rfl⟩
